import Mathlib

/-!
# Verification of the PoseWrangler RBF pose-network model

This file gives a shallow embedding of the core of the `poseWrangler`
repository (Epic Games' PoseWrangler Maya tool) and proves, or refutes,
the properties its natural-language specification claims.

The embedding covers:

* the mirror-mapping name derivation
  (`epic_pose_wrangler/model/mirror_mapping.py` and
  `RBFNode._get_mirrored_solver_name` in
  `epic_pose_wrangler/v2/model/api.py`),
* the solver CRUD surface of `RBFNode` / `UEPoseBlenderNode`
  (`add_driver`, `add_controller`, `add_driven_transforms`, `add_pose`,
  `delete_pose`, `pose`, `poses`, `data`, `create_from_data`,
  `is_pose_muted`, `mute_pose`, `edit_solver`, `go_to_pose`),
* the rotation-mirroring geometry of `RBFNode.mirror_pose`.

Maya's scene state (the attribute store of a `UERBFSolverNode`, the
connected `UEPoseBlenderNode`s and the transform nodes) is modelled as
explicit record state; Maya's dense multi-attribute arrays are modelled
as lists (the code always keeps them dense).  Matrices are lists of 16
rationals: the code only moves matrix values around, it never does
arithmetic on them in the CRUD layer, so exact rationals are faithful.
Blendshape bindings are not modelled: the states considered are
blendshape-free scenes (every `blendshape_data` is empty, making the
blendshape branches of the code no-ops).
-/

namespace PoseWrangler

/-- A Maya matrix attribute value: the 16 entries of a 4x4 matrix in
row-major order, exact rationals in the model. -/
abbrev Mat : Type := List ℚ

/-- The identity matrix value, Maya's default for matrix attributes. -/
def idMat : Mat := [1, 0, 0, 0, 0, 1, 0, 0, 0, 0, 1, 0, 0, 0, 0, 1]

/-!
## Mirror mapping (`epic_pose_wrangler/model/mirror_mapping.py`)

`MirrorMapping` loads two regular expressions and per-side syntax
tokens from a json document.  The MetaHuman document is reproduced in
the docstring of `mirror_mapping.py`:

```
"solver_expression": "(?P<prefix>[a-zA-Z0-9]+)?(?P<side>_[lr]{1}_)(?P<suffix>[a-zA-Z0-9]+)",
"transform_expression": "(?P<prefix>[a-zA-Z0-9]+)?(?P<side>_[lr]{1}_)(?P<suffix>[a-zA-Z0-9]+)",
"left":  {"solver_syntax": "_l_", "transform_syntax": "_l_"},
"right": {"solver_syntax": "_r_", "transform_syntax": "_r_"}
```
-/

/-- One side of a mirror-mapping document (`left` / `right` entries). -/
structure SideSyntax where
  solver_syntax : String
  transform_syntax : String
deriving Repr, DecidableEq

/-- The two sides a `MirrorMapping` can treat as source. -/
inductive Side where
  | left
  | right
deriving Repr, DecidableEq

/-- `MirrorMapping`: the mapping document plus the mutable
`_source_side` field.  The `source_*`/`target_*` properties are derived
from `source_side` exactly as `MirrorMapping.source_side.setter` does. -/
structure MirrorMapping where
  left : SideSyntax
  right : SideSyntax
  source_side : Side
deriving Repr, DecidableEq

namespace MirrorMapping

/-- Data of the currently active source side. -/
def sourceData (m : MirrorMapping) : SideSyntax :=
  match m.source_side with
  | .left => m.left
  | .right => m.right

/-- Data of the side opposite to the source side
(`MirrorMapping.RIGHT if source is LEFT else LEFT`). -/
def targetData (m : MirrorMapping) : SideSyntax :=
  match m.source_side with
  | .left => m.right
  | .right => m.left

/-- `MirrorMapping.source_solver_syntax`. -/
def source_solver_syntax (m : MirrorMapping) : String :=
  m.sourceData.solver_syntax

/-- `MirrorMapping.target_solver_syntax`. -/
def target_solver_syntax (m : MirrorMapping) : String :=
  m.targetData.solver_syntax

/-- `MirrorMapping.swap_sides`: flip the active source side. -/
def swap_sides (m : MirrorMapping) : MirrorMapping :=
  { m with source_side := match m.source_side with
                          | .left => .right
                          | .right => .left }

end MirrorMapping

/-- The MetaHuman mirror mapping (from the document reproduced in the
`mirror_mapping.py` docstring), with the default `source_side="left"`. -/
def metahuman : MirrorMapping :=
  { left := { solver_syntax := "_l_", transform_syntax := "_l_" },
    right := { solver_syntax := "_r_", transform_syntax := "_r_" },
    source_side := .left }

/-- `[a-zA-Z0-9]` as a character predicate. -/
def alnum (c : Char) : Bool := c.isAlpha || c.isDigit

/-- `re.match` of the MetaHuman solver/transform expression
`(?P<prefix>[a-zA-Z0-9]+)?(?P<side>_[lr]{1}_)(?P<suffix>[a-zA-Z0-9]+)`
against a string, returning the three captured groups
(`prefix`, `side`, `suffix`) in order; the optional `prefix` group is
`none` when it does not participate in the match, exactly as
`match.groups()` yields `None` for it.

The translation of the regex is deterministic because backtracking can
never help here: `side` must start with `_`, which `[a-zA-Z0-9]` never
matches, so the greedy `prefix` group either consumes the maximal
leading alphanumeric run (when it is non-empty) or does not participate
(when the name starts with a non-alphanumeric character); `suffix` is
greedy and last, so it consumes the maximal alphanumeric run, and
`re.match` does not anchor at the end of the string. -/
def metahumanMatch (s : String) : Option (Option String × String × String) :=
  let cs := s.toList
  let p := cs.takeWhile alnum
  match cs.dropWhile alnum with
  | '_' :: side :: '_' :: rest =>
    if side = 'l' ∨ side = 'r' then
      let suffix := rest.takeWhile alnum
      if suffix.isEmpty then none
      else some (if p.isEmpty then none else some (String.mk p),
                 String.mk ['_', side, '_'],
                 String.mk suffix)
    else none
  | _ => none

/-- Errors the name-derivation code can raise. -/
inductive NameErr where
  /-- `exceptions.InvalidMirrorMapping` (name does not match the solver
  expression). -/
  | invalidMirrorMapping
  /-- The Python `TypeError` raised by `target_rbf_solver_name += group`
  when a captured group is `None`. -/
  | typeError
deriving Repr, DecidableEq

/-- `RBFNode._get_mirrored_solver_name` (api.py, v2): regex-match the
solver name, then rebuild the name from the captured groups, replacing
the source-side solver syntax token by the target-side token; when a
group equals the *target*-side token instead, the token is replaced by
the source-side one and the mapping's sides are swapped in place.
Returns the derived name together with the (possibly swapped) mapping.
The concatenation of a non-participating (`None`) group raises
`TypeError` in Python, modelled by `NameErr.typeError`. -/
def getMirroredSolverName (m : MirrorMapping) (solverName : String) :
    Except NameErr (String × MirrorMapping) :=
  match metahumanMatch solverName with
  | none => .error .invalidMirrorMapping
  | some (g1, g2, g3) =>
    let step : String × MirrorMapping → Option String →
        Except NameErr (String × MirrorMapping) := fun (acc, mm) g =>
      if g = some mm.source_solver_syntax then
        .ok (acc ++ mm.target_solver_syntax, mm)
      else if g = some mm.target_solver_syntax then
        .ok (acc ++ mm.source_solver_syntax, mm.swap_sides)
      else
        match g with
        | none => .error .typeError
        | some str => .ok (acc ++ str, mm)
    do
      let r1 ← step ("", m) g1
      let r2 ← step r1 (some g2)
      let r3 ← step r2 (some g3)
      pure r3

/-- The body of the `for group in match.groups()` loop of
`_get_mirrored_solver_name`, as a named top-level function — the local
`step` of `getMirroredSolverName`, to which it is definitionally equal:
it threads the accumulated name and the possibly swapped mapping through
one captured group. -/
def mirrorGroupStep : String × MirrorMapping → Option String →
    Except NameErr (String × MirrorMapping)
  | (acc, mm), g =>
    if g = some mm.source_solver_syntax then
      .ok (acc ++ mm.target_solver_syntax, mm)
    else if g = some mm.target_solver_syntax then
      .ok (acc ++ mm.source_solver_syntax, mm.swap_sides)
    else
      match g with
      | none => .error .typeError
      | some str => .ok (acc ++ str, mm)

/-!
## The solver state model (`epic_pose_wrangler/v2/model/api.py`,
`epic_pose_wrangler/v2/model/pose_blender.py`)

A `UERBFSolverNode`'s attribute store, as the wrapper uses it.  The
sparse Maya multi-attributes (`inputs`, `inputsControllers`, `targets`,
and each target's `targetValues` / `targetControllers`) are kept dense
by the code, and are modelled as lists indexed positionally.
-/

/-- One element of the solver's `targets` multi-attribute: a recorded
pose.  `targetFunctionType` / `targetScaleFactor` /
`targetDistanceMethod` are plugin attributes the wrapper reads but never
writes (`add_pose` ignores its corresponding parameters), so in every
reachable state they hold the node defaults. -/
structure PoseTarget where
  targetName : String
  /-- `targets[i].targetValues[j]`: driver `j`'s object-space matrix. -/
  targetValues : List Mat
  /-- `targets[i].targetControllers[j]`. -/
  targetControllers : List Mat
  targetFunctionType : String
  targetScaleFactor : ℚ
  targetDistanceMethod : String
  /-- `targets[i].targetEnable`: `False` = pose muted. -/
  targetEnable : Bool
deriving Repr, DecidableEq, Inhabited

/-- Node defaults for the per-pose plugin attributes (the same names the
code uses as defaults in `pose_data.get(...)`). -/
def defaultFunctionType : String := "DefaultFunctionType"

/-- Node default for `targetDistanceMethod`. -/
def defaultDistanceMethod : String := "DefaultMethod"

/-- A `UEPoseBlenderNode` (one Driven Binding): created per driven
transform by `add_driven_transforms`.  `poses[i]` is the recorded local
matrix of the driven transform for solver pose index `i`; `weights[i]`
names the solver output attribute connected to weight `i`;
`edit = true` means the node's `outMatrix` is disconnected from the
driven transform. -/
structure PoseBlenderState where
  drivenTransform : String
  basePose : Mat
  poses : List Mat
  weights : List String
  edit : Bool
deriving Repr, DecidableEq

/-- The state of one `UERBFSolverNode` plus its connected
`UEPoseBlenderNode`s.  Scalar configuration attributes are stored as the
raw values `cmds.getAttr`/`setAttr` move around; enum-valued attributes
(`mode`, `distanceMethod`, `normalizeMethod`, `functionType`,
`twistAxis`, `inputMode`) are stored as their integer enum index, which
is exactly what `data()` serializes (`enum_value=False`). -/
structure SolverState where
  name : String
  /-- `inputs[i]` connections: driver transform names, in index order. -/
  drivers : List String
  /-- `inputsRest[i]`: each driver's rest (local) matrix. -/
  inputsRest : List Mat
  /-- `inputsControllers[i]` connections. -/
  controllers : List String
  targets : List PoseTarget
  /-- `poseBlenders` connections, in connection order. -/
  poseBlenders : List PoseBlenderState
  /-- Number of allocated `outputs[i]` elements. -/
  outputs : Nat
  mode : Int
  radius : ℚ
  automaticRadius : Bool
  weightThreshold : ℚ
  distanceMethod : Int
  normalizeMethod : Int
  functionType : Int
  twistAxis : Int
  inputMode : Int
deriving Repr, DecidableEq

/-- The ambient Maya scene, as far as the modelled operations read it:
which transform nodes exist (with their current local matrix), which
transforms already have a `poseBlender` message connection (to a blender
of some *other* solver), and which solver nodes exist by name. -/
structure TScene where
  transforms : List (String × Mat)
  boundTransforms : List String
  solvers : List (String × SolverState)
deriving Repr, DecidableEq

/-- The error kinds of the modelled raise sites.  Each constructor is
one family of raises in the Python source; the names follow the spec's
error taxonomy (§7) where it names the kind, else the exception used. -/
inductive Err where
  /-- `InvalidPose('You must add a driver first.')` in `add_pose`. -/
  | noDriver
  /-- `InvalidPose('Already a pose called: ...')` in `add_pose`. -/
  | duplicatePose
  /-- `InvalidPose('Invalid number of matrices...')` /
  `InvalidPose('Invalid number of controller matrices...')` in
  `add_pose`. -/
  | arityMismatch
  /-- `RuntimeError('Unable to add driver after poses have been added')`
  in `add_driver` (and the same guard in `UERBFAPI.add_drivers`). -/
  | driverLimitExceeded
  /-- `RuntimeError('Already has driver ...')` / `('Already has
  controller ...')`. -/
  | duplicateDriver
  /-- `RuntimeError('Unable to add controller after poses have been
  added')` in `add_controller`. -/
  | controllerAfterPoses
  /-- `RuntimeError('Node not found: ...')` / `('Invalid transform
  node: ...')`, and any host error from touching a transform that does
  not exist in the scene. -/
  | nodeNotFound
  /-- `InvalidPose('Pose not found: ...')` in `pose` and
  `InvalidPose('Pose ... does not exist.')` in `delete_pose`. -/
  | poseNotFound
  /-- `InvalidPose('Unable to get Driver indices')` /
  `InvalidPose('Invalid Driver Indices')` / `RuntimeError('Invalid
  Controller Indices')` in `pose`. -/
  | invalidPoseData
  /-- Python `IndexError` from `poses.pop(index)` in
  `UEPoseBlenderNode.delete_pose`. -/
  | indexError
  /-- `exceptions.InvalidPoseIndex` raised by
  `UEPoseBlenderNode.delete_pose` when called with a negative index and
  no pose name. -/
  | invalidPoseIndex
  /-- `exceptions.InvalidSolverError` style: solver reference invalid
  (used for an out-of-range solver index in the scene model). -/
  | invalidSolver
deriving Repr, DecidableEq

/-- The result dictionary of `RBFNode.pose(pose_name)` (and, with the
same keys, one entry of the serialized `poses` mapping).
`blendshape_data` is always empty in the modelled (blendshape-free)
scenes and is omitted. -/
structure PoseData where
  /-- `pose_data['drivers']`. -/
  drivers : List Mat
  /-- `pose_data['controllers']`. -/
  controllers : List Mat
  /-- `pose_data['driven']`: driven transform name ↦ recorded matrix. -/
  driven : List (String × Mat)
  function_type : String
  scale_factor : ℚ
  distance_method : String
  target_enable : Bool
deriving Repr, DecidableEq

/-- The dictionary produced by `RBFNode.data()`.  The write-only
`driven_attrs` entry (blendshape output connections, ignored by
`create_from_data` and empty in blendshape-free scenes) is omitted. -/
structure SolverData where
  solver_name : String
  drivers : List String
  driven_transforms : List String
  controllers : List String
  poses : List (String × PoseData)
  mode : Int
  radius : ℚ
  automaticRadius : Bool
  weightThreshold : ℚ
  distanceMethod : Int
  normalizeMethod : Int
  functionType : Int
  twistAxis : Int
  inputMode : Int
deriving Repr, DecidableEq

namespace SolverState

/-- `RBFNode.num_poses`: size of the `targets` multi-attribute. -/
def num_poses (s : SolverState) : Nat := s.targets.length

/-- `RBFNode.num_drivers`: size of the `inputs` multi-attribute. -/
def num_drivers (s : SolverState) : Nat := s.drivers.length

/-- `RBFNode.num_controllers`. -/
def num_controllers (s : SolverState) : Nat := s.controllers.length

/-- Index of the first target whose `targetName` equals `pose_name`:
the scan `RBFNode.pose_index` performs over the `targets`
multi-attribute. -/
def findIdxName (l : List PoseTarget) (pose_name : String) : Option Nat :=
  match l with
  | [] => none
  | t :: rest =>
    if t.targetName = pose_name then some 0
    else (findIdxName rest pose_name).map (· + 1)

/-- `RBFNode.pose_index`: scan `targets[i].targetName` in index order
for the first match, `-1` when no target carries the name (Python
returns the int `-1`). -/
def pose_index (s : SolverState) (pose_name : String) : Int :=
  match findIdxName s.targets pose_name with
  | some i => (i : Int)
  | none => -1

/-- `UEPoseBlenderNode.get_pose(index)`: read `poses[index]`; a
never-written element of a Maya matrix array reads as the identity. -/
def blenderGetPose (b : PoseBlenderState) (i : Nat) : Mat :=
  b.poses.getD i idMat

/-- `RBFNode.pose(pose_name)`: resolve the index, check the recorded
driver/controller matrix counts against the current driver/controller
counts, and assemble the pose dictionary (driver matrices, controller
matrices, each pose blender's recorded matrix at that index, and the
per-pose plugin attributes). -/
def pose (s : SolverState) (pose_name : String) : Except Err PoseData :=
  match findIdxName s.targets pose_name with
  | none => .error .poseNotFound
  | some i =>
    let t := s.targets.getD i default
    if t.targetValues.length = 0 then .error .invalidPoseData
    else if t.targetValues.length ≠ s.num_drivers then .error .invalidPoseData
    else if t.targetControllers.length ≠ s.num_controllers then .error .invalidPoseData
    else .ok
      { drivers := t.targetValues
        controllers := t.targetControllers
        driven := s.poseBlenders.map (fun b => (b.drivenTransform, blenderGetPose b i))
        function_type := t.targetFunctionType
        scale_factor := t.targetScaleFactor
        distance_method := t.targetDistanceMethod
        target_enable := t.targetEnable }

/-- Insert-or-replace into an association list, preserving the position
of an existing key: the semantics of `OrderedDict.__setitem__`. -/
def upsert {β : Type} (l : List (String × β)) (k : String) (v : β) :
    List (String × β) :=
  match l with
  | [] => [(k, v)]
  | (k', v') :: rest =>
    if k' = k then (k, v) :: rest else (k', v') :: upsert rest k v

/-- The accumulating loop of `RBFNode.poses()`: walk the remaining
targets in index order, skip unnamed targets, look up each named one
with `pose` and insert the result into the ordered dictionary. -/
def posesGo (s : SolverState) :
    List PoseTarget → List (String × PoseData) →
    Except Err (List (String × PoseData))
  | [], acc => .ok acc
  | t :: rest, acc =>
    if t.targetName = "" then posesGo s rest acc
    else
      match s.pose t.targetName with
      | .error e => .error e
      | .ok pd => posesGo s rest (upsert acc t.targetName pd)

/-- `RBFNode.poses()`: walk `targets` in index order, skip unnamed
targets, and build the ordered name ↦ `pose(name)` dictionary. -/
def posesE (s : SolverState) : Except Err (List (String × PoseData)) :=
  posesGo s s.targets []

/-- `RBFNode.has_pose`: membership of the name in the `poses()` keys. -/
def has_poseE (s : SolverState) (pose_name : String) : Except Err Bool :=
  match s.posesE with
  | .error e => .error e
  | .ok ps => .ok (ps.any (fun p => p.1 = pose_name))

/-- The nonempty target names, in index order — the keys `poses()`
yields on a well-formed (nodup-names) state. -/
def poseNames (s : SolverState) : List String :=
  (s.targets.map PoseTarget.targetName).filter (fun n => n ≠ "")

/-- `RBFNode.add_driver(transform_nodes)`: refuse outright once more
than one pose exists; then, per transform: it must exist in the scene
and not already be a driver; connect it at the next `inputs` index and
record its current local matrix as the rest matrix.  All raises happen
before any state for the offending transform is written, so an error
leaves the solver untouched. -/
def addDriversGo (sc : TScene) : SolverState → List String → Except Err SolverState
  | st, [] => .ok st
  | st, n :: rest =>
    match sc.transforms.lookup n with
    | none => .error .nodeNotFound
    | some m =>
      if st.drivers.contains n then .error .duplicateDriver
      else addDriversGo sc
        { st with drivers := st.drivers ++ [n],
                  inputsRest := st.inputsRest ++ [m] } rest

/-- `RBFNode.add_driver` proper: the pose-count guard, then the loop. -/
def add_driver (sc : TScene) (s : SolverState) (transform_nodes : List String) :
    Except Err SolverState :=
  if s.num_poses > 1 then .error .driverLimitExceeded
  else addDriversGo sc s transform_nodes

/-- `RBFNode.add_controller(transform_nodes)`: refuse once any pose
exists; then, per transform: exist / not duplicate / connect at the next
`inputsControllers` index. -/
def addControllersGo (sc : TScene) : SolverState → List String → Except Err SolverState
  | st, [] => .ok st
  | st, n :: rest =>
    match sc.transforms.lookup n with
    | none => .error .nodeNotFound
    | some _ =>
      if st.controllers.contains n then .error .duplicateDriver
      else addControllersGo sc { st with controllers := st.controllers ++ [n] } rest

/-- `RBFNode.add_controller` proper: the pose-count guard, then the loop. -/
def add_controller (sc : TScene) (s : SolverState) (transform_nodes : List String) :
    Except Err SolverState :=
  if s.num_poses ≠ 0 then .error .controllerAfterPoses
  else addControllersGo sc s transform_nodes

/-- The attribute name `"{solverName}.outputs[{i}]"`. -/
def outputAttrName (solverName : String) (i : Nat) : String :=
  solverName ++ ".outputs[" ++ toString i ++ "]"

/-- The attribute name `"{solver}.outputs[{i}]"`. -/
def outputAttr (s : SolverState) (i : Nat) : String :=
  outputAttrName s.name i

/-- Write a list element at an index, appending when the index is the
next free one — the effect of setting element `i` of a dense Maya
multi-attribute (the code only ever writes at `i ≤ length`). -/
def setAt {β : Type} (l : List β) (i : Nat) (v : β) : List β :=
  if i < l.length then l.set i v else l ++ [v]

/-- `RBFNode.add_driven_transforms(driven_nodes, edit)`: per node, skip
it (with a logged error) when some blender already drives it — whether a
pre-existing scene connection or one made earlier in this very call;
otherwise create a `UEPoseBlenderNode` whose base pose (and pose index
0, via the `base_pose` setter) is the node's current local matrix,
connect every existing solver output to the matching weight index, and
apply the `edit` flag.  Reading the current matrix of a transform
missing from the scene is a host error. -/
def add_driven_transforms (sc : TScene) (s : SolverState)
    (driven_nodes : List String) (edit : Bool) : Except Err SolverState :=
  match driven_nodes with
  | [] => .ok s
  | n :: rest =>
    if sc.boundTransforms.contains n
        ∨ (s.poseBlenders.map PoseBlenderState.drivenTransform).contains n then
      add_driven_transforms sc s rest edit
    else
      match sc.transforms.lookup n with
      | none => .error .nodeNotFound
      | some m =>
        let b : PoseBlenderState :=
          { drivenTransform := n
            basePose := m
            poses := [m]
            weights := (List.range s.outputs).map (outputAttr s)
            edit := edit }
        add_driven_transforms sc { s with poseBlenders := s.poseBlenders ++ [b] } rest edit

/-- The matrix a pose blender records for a new pose: the
caller-supplied driven matrix when `driven_matrices` holds a truthy
(non-empty) entry for the blender's transform, else
(`UEPoseBlenderNode.add_pose_from_current`) the driven transform's
current local matrix — a host error if that transform is gone. -/
def blenderPoseValue (sc : TScene) (driven_matrices : List (String × Mat))
    (b : PoseBlenderState) : Except Err Mat :=
  match driven_matrices.lookup b.drivenTransform with
  | some m =>
    if m.isEmpty then
      match sc.transforms.lookup b.drivenTransform with
      | none => .error .nodeNotFound
      | some cur => .ok cur
    else .ok m
  | none =>
    match sc.transforms.lookup b.drivenTransform with
    | none => .error .nodeNotFound
    | some cur => .ok cur

/-- The pose-blender loop of `add_pose`: each blender records its matrix
for the new pose index (`set_pose`) and connects its weight at that
index to the solver output (`set_weight`).  (The Python loop mutates the
scene blender-by-blender; an error can therefore leave earlier blenders
updated — no modelled claim exercises that partial state.) -/
def blendersRecord (sc : TScene) (s : SolverState) (pose_idx : Nat)
    (driven_matrices : List (String × Mat)) :
    List PoseBlenderState → Except Err (List PoseBlenderState)
  | [] => .ok []
  | b :: rest =>
    match blenderPoseValue sc driven_matrices b with
    | .error e => .error e
    | .ok m =>
      match blendersRecord sc s pose_idx driven_matrices rest with
      | .error e => .error e
      | .ok rest' =>
        .ok ({ b with poses := setAt b.poses pose_idx m,
                      weights := setAt b.weights pose_idx (outputAttr s pose_idx) } :: rest')

/-- `RBFNode.add_pose(pose_name, matrices, controller_matrices,
driven_matrices, ..., target_enable)` on a blendshape-free scene.  The
`drivers`-capture convenience branch (`matrices is None`) is not
modelled: every modelled caller supplies `matrices`.  The
`function_type` / `distance_method` / `scale_factor` parameters are
accepted and ignored, exactly as the Python body never touches them.
Checks happen in source order, all before any mutation; on success the
pose is appended at index `num_poses`, and every pose blender records
either the caller-supplied driven matrix (when `driven_matrices` has a
non-empty entry for its transform) or its driven transform's current
local matrix, and gets its weight at the new index connected to the new
solver output. -/
def add_pose (sc : TScene) (s : SolverState) (pose_name : String)
    (matrices : List Mat) (controller_matrices : List Mat)
    (driven_matrices : List (String × Mat))
    (function_type : String := defaultFunctionType)
    (distance_method : String := defaultDistanceMethod)
    (scale_factor : ℚ := 1) (target_enable : Bool := true) :
    Except Err SolverState :=
  if s.num_drivers = 0 then .error .noDriver
  else
    match s.has_poseE pose_name with
    | .error e => .error e
    | .ok true => .error .duplicatePose
    | .ok false =>
      if matrices.length ≠ s.num_drivers then .error .arityMismatch
      else if ¬controller_matrices.isEmpty ∧
          controller_matrices.length ≠ s.num_controllers then .error .arityMismatch
      else if s.num_controllers ≠ 0 ∧ controller_matrices.isEmpty then .error .arityMismatch
      else
        -- the new pose lands at index `num_poses`
        match blendersRecord sc s s.num_poses driven_matrices s.poseBlenders with
        | .error e => .error e
        | .ok blenders =>
          .ok { s with
                  targets := s.targets ++
                    [{ targetName := pose_name
                       targetValues := matrices
                       targetControllers := controller_matrices
                       targetFunctionType := defaultFunctionType
                       targetScaleFactor := 1
                       targetDistanceMethod := defaultDistanceMethod
                       targetEnable := target_enable }]
                  poseBlenders := blenders
                  outputs := max s.outputs (s.num_poses + 1) }

/-- The pose loop shared verbatim by `create_from_data` and the rebuild
phase of `delete_pose`: feed each `(name, pose_data)` entry to
`add_pose` with the entry's driver matrices, controller matrices,
driven-matrix mapping and per-pose attributes. -/
def addPosesFold (sc : TScene) (s : SolverState) :
    List (String × PoseData) → Except Err SolverState
  | [] => .ok s
  | p :: rest =>
    match add_pose sc s p.1 p.2.drivers p.2.controllers p.2.driven
        p.2.function_type p.2.distance_method p.2.scale_factor
        p.2.target_enable with
    | .error e => .error e
    | .ok s' => addPosesFold sc s' rest

/-- `RBFNode.delete_pose(pose_name)` (with
`UEPoseBlenderNode.delete_pose`) on a blendshape-free scene: raise when
the name is absent; otherwise snapshot `poses()`, resolve the index,
remove every `targets` element whose index is below the snapshot size
(all of them, on a well-formed state), drop each blender's recorded
matrix at that index (the blender clears its `poses` array and re-sets
every entry except the popped one), and finally re-add every remaining
snapshot entry from scratch through `add_pose`, compacting indices. -/
def blendersErase (pose_idx : Nat) :
    List PoseBlenderState → Except Err (List PoseBlenderState)
  | [] => .ok []
  | b :: rest =>
    if pose_idx < b.poses.length then
      match blendersErase pose_idx rest with
      | .error e => .error e
      | .ok rest' => .ok ({ b with poses := b.poses.eraseIdx pose_idx } :: rest')
    else .error .indexError

/-- `RBFNode.delete_pose(pose_name)` proper; see `blendersErase` for the
per-blender `UEPoseBlenderNode.delete_pose` step. -/
def delete_pose (sc : TScene) (s : SolverState) (pose_name : String) :
    Except Err SolverState :=
  match s.has_poseE pose_name with
  | .error e => .error e
  | .ok false => .error .poseNotFound
  | .ok true =>
    match s.posesE with
    | .error e => .error e
    | .ok poses =>
      -- `delete_blendshape` is called for every pose: a no-op without
      -- blendshape bindings.  The `removeMultiInstance` loop then clears
      -- the first `len(poses)` targets (all of them, when well-formed),
      -- each blender drops its recorded matrix at the pose's index, and
      -- the remaining snapshot entries are re-added through `add_pose`.
      match findIdxName s.targets pose_name with
      | none => .error .invalidPoseIndex
      | some pose_idx =>
        match blendersErase pose_idx s.poseBlenders with
        | .error e => .error e
        | .ok blenders =>
          addPosesFold sc
            { s with targets := s.targets.drop poses.length
                     poseBlenders := blenders }
            (poses.eraseP (fun p => p.1 = pose_name))

/-- `RBFNode.data()`: the serialized dictionary (without the write-only
`driven_attrs` entry; see `SolverData`).  Enum attributes are read with
`enum_value=False`, i.e. as their integer index. -/
def data (s : SolverState) : Except Err SolverData :=
  match s.posesE with
  | .error e => .error e
  | .ok ps => .ok
    { solver_name := s.name
      drivers := s.drivers
      driven_transforms := s.poseBlenders.map PoseBlenderState.drivenTransform
      controllers := s.controllers
      poses := ps
      mode := s.mode
      radius := s.radius
      automaticRadius := s.automaticRadius
      weightThreshold := s.weightThreshold
      distanceMethod := s.distanceMethod
      normalizeMethod := s.normalizeMethod
      functionType := s.functionType
      twistAxis := s.twistAxis
      inputMode := s.inputMode }

end SolverState

/-- Host enum index of the `mode` field `'Interpolative'` that
`set_defaults` selects; the concrete value lives in the native plugin
and is immaterial (deserializing a full document overwrites `mode`). -/
def interpolativeModeIndex : Int := 0

/-- Native-plugin default for a freshly created node's numeric
attributes other than the ones `set_defaults` writes; immaterial for the
same reason as `interpolativeModeIndex`. -/
def nodeDefaultScalar : ℚ := 0

/-- Native-plugin default enum index for a freshly created node. -/
def nodeDefaultEnum : Int := 0

/-- `RBFNode.create(name)` followed by `set_defaults()`: a fresh
`UERBFSolverNode` with no drivers/controllers/poses/blenders,
`mode='Interpolative'`, `radius=45`, `automaticRadius=False`, and plugin
defaults everywhere else. -/
def createDefault (name : String) : SolverState :=
  { name := name
    drivers := []
    inputsRest := []
    controllers := []
    targets := []
    poseBlenders := []
    outputs := 0
    mode := interpolativeModeIndex
    radius := 45
    automaticRadius := false
    weightThreshold := nodeDefaultScalar
    distanceMethod := nodeDefaultEnum
    normalizeMethod := nodeDefaultEnum
    functionType := nodeDefaultEnum
    twistAxis := nodeDefaultEnum
    inputMode := nodeDefaultEnum }

/-- `RBFNode.create_from_data(data)`: reuse the named solver when it
exists in the scene, else create a fresh one with defaults; add the
missing drivers, controllers and driven transforms; add every serialized
pose through `add_pose`; finally write the plain scalar attributes
(`radius`, `automaticRadius`, `weightThreshold`, `normalizeMethod`) and
then the enum attributes (`mode`, `distanceMethod`, `normalizeMethod`,
`functionType`, `twistAxis`, `inputMode`) from the document (all keys
are present in a document produced by `data()`). -/
def createDrivers (sc : TScene) : SolverState → List String → Except Err SolverState
  | st, [] => .ok st
  | st, driver :: rest =>
    if st.drivers.contains driver then createDrivers sc st rest
    else
      match st.add_driver sc [driver] with
      | .error e => .error e
      | .ok st' => createDrivers sc st' rest

/-- The `for controller in controllers: if not has_controller:
add_controller(controller)` loop of `create_from_data`. -/
def createControllers (sc : TScene) : SolverState → List String → Except Err SolverState
  | st, [] => .ok st
  | st, controller :: rest =>
    if st.controllers.contains controller then createControllers sc st rest
    else
      match st.add_controller sc [controller] with
      | .error e => .error e
      | .ok st' => createControllers sc st' rest

/-- `RBFNode.create_from_data(data)` proper: reuse the named solver when
it exists in the scene, else create a fresh one with defaults; add the
missing drivers, controllers and driven transforms; add every serialized
pose through `add_pose`; finally write the plain scalar attributes
(`radius`, `automaticRadius`, `weightThreshold`, `normalizeMethod`) and
then the enum attributes (`mode`, `distanceMethod`, `normalizeMethod`,
`functionType`, `twistAxis`, `inputMode`) from the document (all keys
are present in a document produced by `data()`). -/
def create_from_data (sc : TScene) (d : SolverData) : Except Err SolverState :=
  let rbf0 :=
    match sc.solvers.lookup d.solver_name with
    | some st => st
    | none => createDefault d.solver_name
  match createDrivers sc rbf0 d.drivers with
  | .error e => .error e
  | .ok s1 =>
    match createControllers sc s1 d.controllers with
    | .error e => .error e
    | .ok s2 =>
      let s3E :=
        if d.driven_transforms.isEmpty then .ok s2
        else s2.add_driven_transforms sc d.driven_transforms false
      match s3E with
      | .error e => .error e
      | .ok s3 =>
        match SolverState.addPosesFold sc s3 d.poses with
        | .error e => .error e
        | .ok s4 =>
          let s5 := { s4 with radius := d.radius
                              automaticRadius := d.automaticRadius
                              weightThreshold := d.weightThreshold
                              normalizeMethod := d.normalizeMethod }
          .ok { s5 with mode := d.mode
                        distanceMethod := d.distanceMethod
                        normalizeMethod := d.normalizeMethod
                        functionType := d.functionType
                        twistAxis := d.twistAxis
                        inputMode := d.inputMode }

/-- The observable outcome of `is_pose_muted` / `mute_pose`: either the
`InvalidPoseIndex` raise, or the `getAttr` (`read`) / `setAttr`
(`write`) of `targets[idx].targetEnable` the method proceeds to — the
claim-relevant information being *which* index is accessed and whether
the guard fired. -/
inductive MuteOp where
  | invalidPoseIndex
  | read (idx : Int)
  | write (idx : Int) (value : Bool)
deriving Repr, DecidableEq

namespace SolverState

/-- `RBFNode.is_pose_muted(pose_name="", pose_index=-1)`: when the index
is negative and a name was given, resolve the index from the name
(`pose_index`, which yields `-1` for an unknown name); raise
`InvalidPoseIndex` only when no name was given and the index is
negative; otherwise read `targets[index].targetEnable` and return its
negation. -/
def is_pose_muted (s : SolverState) (pose_name : String := "")
    (pose_index : Int := -1) : MuteOp :=
  if pose_index < 0 ∧ pose_name ≠ "" then .read (s.pose_index pose_name)
  else if pose_name = "" ∧ pose_index < 0 then .invalidPoseIndex
  else .read pose_index

/-- `RBFNode.mute_pose(pose_name="", pose_index=-1, mute=True)`: same
index resolution and guard as `is_pose_muted`, then write
`targets[index].targetEnable = not mute`.  (The `mute is None` toggle
branch is outside the bool-typed parameter domain modelled here.) -/
def mute_pose (s : SolverState) (pose_name : String := "")
    (pose_index : Int := -1) (mute : Bool := true) : MuteOp :=
  if pose_index < 0 ∧ pose_name ≠ "" then .write (s.pose_index pose_name) (!mute)
  else if pose_name = "" ∧ pose_index < 0 then .invalidPoseIndex
  else .write pose_index (!mute)

/-- `RBFNode.get_solver_edit_status`: true iff some connected pose
blender is in edit mode. -/
def get_solver_edit_status (s : SolverState) : Bool :=
  s.poseBlenders.any PoseBlenderState.edit

/-- Well-formedness of a solver state: the invariants every state
reachable through the wrapper satisfies — nonempty, pairwise-distinct
pose names; driver/controller matrix counts matching the
driver/controller lists (I1/I2) with full 16-entry matrices; every
blender's recorded-pose list in lockstep with the pose list (I5) with
full matrices; no duplicate driver/controller/driven names; and poses
only when at least one driver exists. -/
def wf (s : SolverState) : Bool :=
  s.targets.all (fun t =>
    t.targetName != "" &&
    t.targetValues.length == s.drivers.length &&
    t.targetControllers.length == s.controllers.length &&
    t.targetValues.all (fun m => m.length == 16) &&
    t.targetControllers.all (fun m => m.length == 16)) &&
  decide (s.targets.map PoseTarget.targetName).Nodup &&
  s.poseBlenders.all (fun b =>
    b.poses.length == s.targets.length &&
    b.poses.all (fun m => m.length == 16)) &&
  decide s.drivers.Nodup &&
  decide s.controllers.Nodup &&
  decide (s.poseBlenders.map PoseBlenderState.drivenTransform).Nodup &&
  (s.targets.isEmpty || !s.drivers.isEmpty)

end SolverState

/-- Element-wise closeness of two matrix lists within `eps`: same list
shape and every entry within `eps`. -/
def matsClose (a b : List Mat) (eps : ℚ) : Bool :=
  a.length == b.length &&
  (a.zip b).all (fun p =>
    p.1.length == p.2.length &&
    (p.1.zip p.2).all (fun q => decide (|q.1 - q.2| ≤ eps)))

/-- Replace the matrix of an existing transform (`cmds.xform(node,
matrix=...)`); touching a node missing from the scene is a host
error. -/
def setTransform (tr : List (String × Mat)) (n : String) (m : Mat) :
    Except Err (List (String × Mat)) :=
  if (tr.lookup n).isSome then .ok (SolverState.upsert tr n m)
  else .error .nodeNotFound

/-- `RBFNode.go_to_pose(pose_name)`: read the pose, write its stored
driver (or, when controllers exist, controller) matrices onto the live
transforms, then have every pose blender move its driven transform to
the recorded matrix at that pose index
(`UEPoseBlenderNode.go_to_pose`).  Only the scene's transform table
changes; no solver attribute does. -/
def setEach (tr : List (String × Mat)) :
    List (String × Mat) → Except Err (List (String × Mat))
  | [] => .ok tr
  | (n, m) :: rest =>
    match setTransform tr n m with
    | .error e => .error e
    | .ok tr' => setEach tr' rest

/-- `RBFNode.go_to_pose(pose_name)`: read the pose, write its stored
driver (or, when controllers exist, controller) matrices onto the live
transforms, then have every pose blender move its driven transform to
the recorded matrix at that pose index
(`UEPoseBlenderNode.go_to_pose`).  Only the scene's transform table
changes; no solver attribute does. -/
def go_to_pose (tr : List (String × Mat)) (s : SolverState)
    (pose_name : String) : Except Err (List (String × Mat)) :=
  match s.pose pose_name with
  | .error e => .error e
  | .ok pd =>
    let i : Nat :=
      match SolverState.findIdxName s.targets pose_name with
      | some i => i
      | none => 0
    let pairs :=
      if s.num_controllers = 0 then s.drivers.zip pd.drivers
      else s.controllers.zip pd.controllers
    match setEach tr pairs with
    | .error e => .error e
    | .ok tr1 =>
      setEach tr1 (s.poseBlenders.map
        (fun b => (b.drivenTransform, SolverState.blenderGetPose b i)))

/-- A scene of whole solvers and live transforms, for the operations
(`edit_solver`) that touch every solver. -/
structure SceneM where
  solvers : List SolverState
  transforms : List (String × Mat)
deriving Repr, DecidableEq

/-- `RBFNode.edit_solver(edit)` for the solver at position `i` of the
scene: set every one of its own pose blenders' `edit` flag (connecting
or disconnecting `outMatrix`), then walk `find_all()` and send every
*other* solver (node-name inequality, per `RBFNode.__eq__`) that has a
`'default'` pose to that pose.  `go_to_pose` only moves transforms:
no other solver's attributes — in particular no other blender's `edit`
connection state — are modified. -/
def forceOthersToDefault (selfName : String) (tr : List (String × Mat)) :
    List SolverState → Except Err (List (String × Mat))
  | [] => .ok tr
  | t :: rest =>
    if t.name = selfName then forceOthersToDefault selfName tr rest
    else
      match t.has_poseE "default" with
      | .error e => .error e
      | .ok false => forceOthersToDefault selfName tr rest
      | .ok true =>
        match go_to_pose tr t "default" with
        | .error e => .error e
        | .ok tr' => forceOthersToDefault selfName tr' rest

/-- The edit toggle `edit_solver` applies to its own solver: every
connected pose blender's `edit` connection state is set. -/
def editSolverApply (s : SolverState) (edit : Bool) : SolverState :=
  { s with poseBlenders := s.poseBlenders.map (fun b => { b with edit := edit }) }

/-- `RBFNode.edit_solver(edit)` proper, for the solver at position `i`
of the scene's solver list; see the preceding comment. -/
def edit_solver (sc : SceneM) (i : Nat) (edit : Bool) : Except Err SceneM :=
  match sc.solvers.get? i with
  | none => .error .invalidSolver
  | some s =>
    match forceOthersToDefault (editSolverApply s edit).name sc.transforms
        (sc.solvers.set i (editSolverApply s edit)) with
    | .error e => .error e
    | .ok tr => .ok { solvers := sc.solvers.set i (editSolverApply s edit),
                      transforms := tr }

/-!
## Proof-layer descriptions of the model's states
-/

namespace SolverState

/-- The `pose()` dictionary of the target `t` sitting at index `i`:
what `pose` returns for its name on a well-formed state. -/
def mkPoseData (s : SolverState) (i : Nat) (t : PoseTarget) : PoseData :=
  { drivers := t.targetValues
    controllers := t.targetControllers
    driven := s.poseBlenders.map (fun b => (b.drivenTransform, blenderGetPose b i))
    function_type := t.targetFunctionType
    scale_factor := t.targetScaleFactor
    distance_method := t.targetDistanceMethod
    target_enable := t.targetEnable }

/-- The rows of the `poses()` dictionary for the targets `ts` occupying
indices `i, i+1, …` of solver `s`. -/
def rowsFrom (s : SolverState) (i : Nat) (ts : List PoseTarget) :
    List (String × PoseData) :=
  match ts with
  | [] => []
  | t :: rest => (t.targetName, mkPoseData s i t) :: rowsFrom s (i + 1) rest

/-- The target element `add_pose` appends for a pose. -/
def mkTarget (pose_name : String) (matrices : List Mat)
    (controller_matrices : List Mat) (target_enable : Bool) : PoseTarget :=
  { targetName := pose_name
    targetValues := matrices
    targetControllers := controller_matrices
    targetFunctionType := defaultFunctionType
    targetScaleFactor := 1
    targetDistanceMethod := defaultDistanceMethod
    targetEnable := target_enable }

/-- Writing the values `vs` into a list at consecutive indices
`i, i+1, …` through `setAt`: the cumulative effect on one blender's
`poses`/`weights` arrays of adding several poses in a row. -/
def applyRecords {β : Type} (l : List β) (i : Nat) : List β → List β
  | [] => l
  | v :: vs => applyRecords (setAt l i v) (i + 1) vs

/-- The target list a run of `add_pose` calls appends, one element per
`(name, pose_data)` entry. -/
def mkTargetOf (p : String × PoseData) : PoseTarget :=
  mkTarget p.1 p.2.drivers p.2.controllers p.2.target_enable

/-- The matrix one blender records for the entry `p`: the entry's
driven matrix for the blender's transform (total on the states the fold
lemmas consider, where a lookup always succeeds). -/
def recordOf (b : PoseBlenderState) (p : String × PoseData) : Mat :=
  (p.2.driven.lookup b.drivenTransform).getD idMat

/-- The data of a pose target the spec's delete contract talks about:
its name, stored driver and controller matrices, and mute flag. -/
def targetProj (t : PoseTarget) : String × List Mat × List Mat × Bool :=
  (t.targetName, t.targetValues, t.targetControllers, t.targetEnable)

/-- The state a successful `add_pose` call leaves behind: the appended
target, the per-blender recorded matrix + weight connection at the new
index, and the new output element. -/
def afterAddPose (s : SolverState) (pose_name : String)
    (matrices controller_matrices : List Mat)
    (driven_matrices : List (String × Mat)) (te : Bool) : SolverState :=
  { s with
      targets := s.targets ++ [mkTarget pose_name matrices controller_matrices te]
      poseBlenders := s.poseBlenders.map (fun b =>
        { b with
            poses := setAt b.poses s.num_poses
              ((driven_matrices.lookup b.drivenTransform).getD idMat)
            weights := setAt b.weights s.num_poses (outputAttr s s.num_poses) })
      outputs := max s.outputs (s.num_poses + 1) }

/-- The state a successful run of `addPosesFold` leaves behind, in
closed form: one appended target per entry, consecutive per-blender
records and weight connections, and the outputs array grown to the last
new index. -/
def afterAddPoses (s0 : SolverState) (ps : List (String × PoseData)) :
    SolverState :=
  { s0 with
      targets := s0.targets ++ ps.map mkTargetOf
      poseBlenders := s0.poseBlenders.map (fun b =>
        { b with
            poses := applyRecords b.poses s0.num_poses (ps.map (recordOf b))
            weights := applyRecords b.weights s0.num_poses
              ((List.range' s0.num_poses ps.length).map (outputAttrName s0.name)) })
      outputs := if ps.isEmpty then s0.outputs
                 else max s0.outputs (s0.num_poses + ps.length) }

/-- The well-formedness invariants of `wf`, in propositional form. -/
structure WFProps (s : SolverState) : Prop where
  names_ne : ∀ t ∈ s.targets, t.targetName ≠ ""
  names_nodup : (s.targets.map PoseTarget.targetName).Nodup
  values_len : ∀ t ∈ s.targets, t.targetValues.length = s.drivers.length
  ctrl_len : ∀ t ∈ s.targets, t.targetControllers.length = s.controllers.length
  mats16 : ∀ t ∈ s.targets, ∀ m ∈ t.targetValues, m.length = 16
  cmats16 : ∀ t ∈ s.targets, ∀ m ∈ t.targetControllers, m.length = 16
  blender_len : ∀ b ∈ s.poseBlenders, b.poses.length = s.targets.length
  blender_mats16 : ∀ b ∈ s.poseBlenders, ∀ m ∈ b.poses, m.length = 16
  drivers_nodup : s.drivers.Nodup
  controllers_nodup : s.controllers.Nodup
  blenders_nodup : (s.poseBlenders.map PoseBlenderState.drivenTransform).Nodup
  drivers_of_targets : s.targets ≠ [] → s.drivers ≠ []

end SolverState

/-- The state `createDrivers` builds from `st` when every driver is found
in the scene and none is a duplicate, in closed form: the drivers
appended in order, each with its scene matrix as rest matrix. -/
def afterCreateDrivers (sc : TScene) (st : SolverState) (ds : List String) :
    SolverState :=
  { st with drivers := st.drivers ++ ds
            inputsRest := st.inputsRest
              ++ ds.map (fun n => (sc.transforms.lookup n).getD idMat) }

/-- The state `createControllers` builds from `st` when every controller
is found in the scene and none is a duplicate, in closed form. -/
def afterCreateControllers (st : SolverState) (cs : List String) :
    SolverState :=
  { st with controllers := st.controllers ++ cs }

/-- The pose blender `add_driven_transforms` creates for the node `n`:
base pose (and pose index 0) the node's current scene matrix, one weight
connection per existing solver output. -/
def freshBlender (sc : TScene) (st : SolverState) (n : String) :
    PoseBlenderState :=
  { drivenTransform := n
    basePose := (sc.transforms.lookup n).getD idMat
    poses := [(sc.transforms.lookup n).getD idMat]
    weights := (List.range st.outputs).map (SolverState.outputAttr st)
    edit := false }

/-- The state `add_driven_transforms` builds from `st` when every node is
found in the scene and none is already driven, in closed form. -/
def afterAddDriven (sc : TScene) (st : SolverState) (ns : List String) :
    SolverState :=
  { st with poseBlenders := st.poseBlenders ++ ns.map (freshBlender sc st) }

/-- The document `data()` serializes for a well-formed solver `s`, in
closed form: one `poses()` row per target plus the scalar attributes. -/
def dataOf (s : SolverState) : SolverData :=
  { solver_name := s.name
    drivers := s.drivers
    driven_transforms := s.poseBlenders.map PoseBlenderState.drivenTransform
    controllers := s.controllers
    poses := SolverState.rowsFrom s 0 s.targets
    mode := s.mode
    radius := s.radius
    automaticRadius := s.automaticRadius
    weightThreshold := s.weightThreshold
    distanceMethod := s.distanceMethod
    normalizeMethod := s.normalizeMethod
    functionType := s.functionType
    twistAxis := s.twistAxis
    inputMode := s.inputMode }

/-- The solver state `create_from_data` reaches on `dataOf s` just
before re-adding the serialized poses: a fresh default node with `s`'s
drivers, controllers and one fresh blender per driven transform. -/
def rebuiltBase (sc : TScene) (s : SolverState) : SolverState :=
  afterAddDriven sc
    (afterCreateControllers
      (afterCreateDrivers sc (createDefault s.name) s.drivers)
      s.controllers)
    (s.poseBlenders.map PoseBlenderState.drivenTransform)

/-- The solver state `create_from_data sc (dataOf s)` returns, in closed
form: the rebuilt base with every serialized pose re-added and the
document's scalar attributes written last. -/
def rebuiltSolver (sc : TScene) (s : SolverState) : SolverState :=
  { SolverState.afterAddPoses (rebuiltBase sc s)
      (SolverState.rowsFrom s 0 s.targets) with
      radius := s.radius, automaticRadius := s.automaticRadius,
      weightThreshold := s.weightThreshold, mode := s.mode,
      distanceMethod := s.distanceMethod, normalizeMethod := s.normalizeMethod,
      functionType := s.functionType, twistAxis := s.twistAxis,
      inputMode := s.inputMode }

/-!
## Rotation mirroring (`RBFNode.mirror_pose`, rotation section)

The rotation computation of `mirror_pose` runs through the host's math
API (`MEulerRotation` / `MMatrix` / `MTransformationMatrix` /
`MQuaternion`), which uses the row-vector convention (`v' = v * M`, so
`A * B` applies `A` first) and the `XYZ` rotation order.  Parent
matrices enter the rotation pipeline only through their rotation
blocks — the upper 3×3 of an affine product is the product of the upper
3×3 blocks — so the pipeline is embedded over 3×3 real matrices.
-/

/-- 3×3 real matrices: the rotation block of a host transform matrix. -/
abbrev M3 : Type := Matrix (Fin 3) (Fin 3) ℝ

/-- A host quaternion (`MQuaternion`): `x`, `y`, `z`, `w` components. -/
structure Quat where
  x : ℝ
  y : ℝ
  z : ℝ
  w : ℝ

/-- `math.radians`. -/
noncomputable def radians (d : ℝ) : ℝ := d * Real.pi / 180

/-- `math.degrees`. -/
noncomputable def degrees (r : ℝ) : ℝ := r * 180 / Real.pi

/-- Rotation about X by `t` (row-vector convention). -/
noncomputable def rotX (t : ℝ) : M3 :=
  !![1, 0, 0; 0, Real.cos t, Real.sin t; 0, -Real.sin t, Real.cos t]

/-- Rotation about Y by `t` (row-vector convention). -/
noncomputable def rotY (t : ℝ) : M3 :=
  !![Real.cos t, 0, -Real.sin t; 0, 1, 0; Real.sin t, 0, Real.cos t]

/-- Rotation about Z by `t` (row-vector convention). -/
noncomputable def rotZ (t : ℝ) : M3 :=
  !![Real.cos t, Real.sin t, 0; -Real.sin t, Real.cos t, 0; 0, 0, 1]

/-- `MEulerRotation(x, y, z).asMatrix()` for the default `kXYZ` order:
rotate about X, then Y, then Z — `Rx * Ry * Rz` in the row-vector
convention. -/
noncomputable def eulerToMatrix (x y z : ℝ) : M3 := rotX x * rotY y * rotZ z

/-- `MQuaternion.asMatrix()` in the row-vector convention. -/
noncomputable def quatToMatrix (q : Quat) : M3 :=
  !![1 - 2*(q.y^2 + q.z^2), 2*(q.x*q.y + q.w*q.z), 2*(q.x*q.z - q.w*q.y);
     2*(q.x*q.y - q.w*q.z), 1 - 2*(q.x^2 + q.z^2), 2*(q.y*q.z + q.w*q.x);
     2*(q.x*q.z + q.w*q.y), 2*(q.y*q.z - q.w*q.x), 1 - 2*(q.x^2 + q.y^2)]

/-- `MTransformationMatrix.rotation(asQuaternion=True)`: the standard
trace-based quaternion extraction from a rotation matrix (Shepperd's
method), with the component signs of the row-vector convention. -/
noncomputable def quatOfRot (m : M3) : Quat :=
  if 0 < m 0 0 + m 1 1 + m 2 2 then
    ⟨(m 1 2 - m 2 1) / (2 * Real.sqrt (m 0 0 + m 1 1 + m 2 2 + 1)),
     (m 2 0 - m 0 2) / (2 * Real.sqrt (m 0 0 + m 1 1 + m 2 2 + 1)),
     (m 0 1 - m 1 0) / (2 * Real.sqrt (m 0 0 + m 1 1 + m 2 2 + 1)),
     Real.sqrt (m 0 0 + m 1 1 + m 2 2 + 1) / 2⟩
  else if m 1 1 ≤ m 0 0 ∧ m 2 2 ≤ m 0 0 then
    ⟨Real.sqrt (1 + m 0 0 - m 1 1 - m 2 2) / 2,
     (m 0 1 + m 1 0) / (2 * Real.sqrt (1 + m 0 0 - m 1 1 - m 2 2)),
     (m 2 0 + m 0 2) / (2 * Real.sqrt (1 + m 0 0 - m 1 1 - m 2 2)),
     (m 1 2 - m 2 1) / (2 * Real.sqrt (1 + m 0 0 - m 1 1 - m 2 2))⟩
  else if m 2 2 ≤ m 1 1 then
    ⟨(m 0 1 + m 1 0) / (2 * Real.sqrt (1 + m 1 1 - m 0 0 - m 2 2)),
     Real.sqrt (1 + m 1 1 - m 0 0 - m 2 2) / 2,
     (m 1 2 + m 2 1) / (2 * Real.sqrt (1 + m 1 1 - m 0 0 - m 2 2)),
     (m 2 0 - m 0 2) / (2 * Real.sqrt (1 + m 1 1 - m 0 0 - m 2 2))⟩
  else
    ⟨(m 2 0 + m 0 2) / (2 * Real.sqrt (1 + m 2 2 - m 0 0 - m 1 1)),
     (m 1 2 + m 2 1) / (2 * Real.sqrt (1 + m 2 2 - m 0 0 - m 1 1)),
     Real.sqrt (1 + m 2 2 - m 0 0 - m 1 1) / 2,
     (m 0 1 - m 1 0) / (2 * Real.sqrt (1 + m 2 2 - m 0 0 - m 1 1))⟩

/-- Two-argument arctangent: the angle of the point `(x, y)`, in
`(-π, π]` — the convention of the host's euler extraction. -/
noncomputable def atan2 (y x : ℝ) : ℝ := Complex.arg ⟨x, y⟩

/-- `MTransformationMatrix.rotation(asQuaternion=False)` for the `kXYZ`
order: the standard euler extraction from a row-convention rotation
matrix `Rx * Ry * Rz` (away from the gimbal-locked `|m 0 2| = 1`
configurations, which no modelled claim evaluates). -/
noncomputable def eulerOfRot (m : M3) : ℝ × ℝ × ℝ :=
  (atan2 (m 1 2) (m 2 2), Real.arcsin (-(m 0 2)), atan2 (m 0 1) (m 0 0))

/-- The euler angles of a rotation matrix, converted to degrees — the
final step of the rotation mirroring. -/
noncomputable def eulerDegreesOf (m : M3) : ℝ × ℝ × ℝ :=
  (degrees (eulerOfRot m).1, degrees (eulerOfRot m).2.1,
   degrees (eulerOfRot m).2.2)

/-- `rot.x = rot.x * -1.0; rot.w = rot.w * -1.0`: negate the X and W
components of a quaternion. -/
def negXW (q : Quat) : Quat := ⟨-q.x, q.y, q.z, -q.w⟩

/-- The rotation computation of `RBFNode.mirror_pose`, line by line:
`driver_matrix` from the local euler degrees, `world_matrix =
driver_matrix * source_parent_matrix`, `rot_matrix =
source_parent_matrix.inverse() * world_matrix`, quaternion extraction,
X/W negation, reconstitution, `final_rot_matrix = target_parent_matrix *
rot_matrix * target_parent_matrix.inverse()`, euler extraction, degrees
conversion. -/
noncomputable def mirror_rotation (ps pt : M3) (rot : ℝ × ℝ × ℝ) :
    ℝ × ℝ × ℝ :=
  eulerDegreesOf
    (pt * quatToMatrix (negXW (quatOfRot
        (ps⁻¹ * (eulerToMatrix (radians rot.1) (radians rot.2.1)
          (radians rot.2.2) * ps))))
      * pt⁻¹)

/-- Modelled from the spec: the literal reading of the spec's
`mirror_rotation` steps — "convert the Euler angles to a rotation
matrix, compose into world space [via the source parent matrix], convert
to a quaternion, negate the quaternion's X and W components,
reconstitute the matrix, recompose into the target's local space [via
the target parent's inverse], convert back to Euler degrees" — i.e. the
quaternion is taken from the world matrix itself and the result is
composed with the target parent's inverse alone. -/
noncomputable def mirror_rotation_literal (ps pt : M3) (rot : ℝ × ℝ × ℝ) :
    ℝ × ℝ × ℝ :=
  eulerDegreesOf
    (quatToMatrix (negXW (quatOfRot
        (eulerToMatrix (radians rot.1) (radians rot.2.1)
          (radians rot.2.2) * ps)))
      * pt⁻¹)

/-- Modelled from the spec (amended): the X/W-negated quaternion is
taken from the world-space rotation *conjugated back* through the source
parent (`Ps⁻¹ * R * Ps`), and the reconstituted matrix is *conjugated*
by the target parent (`Pt * M * Pt⁻¹`) — not merely multiplied by its
inverse. -/
noncomputable def mirror_rotation_conj (ps pt : M3) (rot : ℝ × ℝ × ℝ) :
    ℝ × ℝ × ℝ :=
  eulerDegreesOf
    (pt * quatToMatrix (negXW (quatOfRot
        (ps⁻¹ * eulerToMatrix (radians rot.1) (radians rot.2.1)
          (radians rot.2.2) * ps)))
      * pt⁻¹)

/-- The source parent matrix of the C3 counterexample: a 180° rotation
about Z. -/
noncomputable def rzPi : M3 := !![-1, 0, 0; 0, -1, 0; 0, 0, 1]

/-!
## Concrete witness scenes

Small concrete states used to instantiate the general theorems (the
Scenario A/B/C shapes of the spec: one driver `J_l_shoulder`, one driven
transform `J_l_elbow`, poses `default` and `raised`).
-/

/-- A translated matrix value. -/
def witMatA : Mat := [1, 0, 0, 0, 0, 1, 0, 0, 0, 0, 1, 0, 2, 0, 0, 1]

/-- A rotated-and-translated matrix value. -/
def witMatB : Mat := [0, 1, 0, 0, -1, 0, 0, 0, 0, 0, 1, 0, 0, 3, 0, 1]

/-- The `default` pose target of the witness solver. -/
def witTargetDefault : PoseTarget :=
  { targetName := "default", targetValues := [idMat], targetControllers := []
    targetFunctionType := defaultFunctionType, targetScaleFactor := 1
    targetDistanceMethod := defaultDistanceMethod, targetEnable := true }

/-- The `raised` pose target of the witness solver. -/
def witTargetRaised : PoseTarget :=
  { targetName := "raised", targetValues := [witMatB], targetControllers := []
    targetFunctionType := defaultFunctionType, targetScaleFactor := 1
    targetDistanceMethod := defaultDistanceMethod, targetEnable := true }

/-- The witness solver's driven binding for `J_l_elbow`. -/
def witBlender : PoseBlenderState :=
  { drivenTransform := "J_l_elbow", basePose := idMat
    poses := [idMat, witMatA]
    weights := ["arm_l_UERBFSolver.outputs[0]", "arm_l_UERBFSolver.outputs[1]"]
    edit := false }

/-- A two-pose witness solver (Scenario A shape). -/
def witSolver : SolverState :=
  { name := "arm_l_UERBFSolver", drivers := ["J_l_shoulder"], inputsRest := [idMat]
    controllers := [], targets := [witTargetDefault, witTargetRaised]
    poseBlenders := [witBlender], outputs := 2
    mode := 1, radius := 45, automaticRadius := false, weightThreshold := 1 / 100
    distanceMethod := 2, normalizeMethod := 3, functionType := 4, twistAxis := 1
    inputMode := 2 }

/-- A scene holding the witness solver's transforms, with nothing bound
and no solver node yet (a fresh scene to deserialize into). -/
def witScene : TScene :=
  { transforms := [("J_l_shoulder", idMat), ("J_l_elbow", witMatA)]
    boundTransforms := [], solvers := [] }

/-- A second solver whose single driven binding is in edit mode. -/
def witSolverEditing : SolverState :=
  { witSolver with
      name := "leg_l_UERBFSolver"
      drivers := ["J_l_hip"]
      targets := [witTargetDefault]
      poseBlenders := [{ drivenTransform := "J_l_knee", basePose := idMat
                         poses := [idMat], weights := [], edit := true }]
      outputs := 1 }

/-- A two-solver scene in which the second solver is already in edit
mode. -/
def witSceneM : SceneM :=
  { solvers := [witSolver, witSolverEditing]
    transforms := [("J_l_shoulder", idMat), ("J_l_elbow", witMatA),
                   ("J_l_hip", idMat), ("J_l_knee", witMatB)] }

/-- The scene `edit_solver witSceneM 0 true` produces: the first
solver's binding switched to edit mode, the second solver untouched,
and the second solver's transforms moved to its `default` pose. -/
def witSceneMAfter : SceneM :=
  { solvers := [{ witSolver with poseBlenders := [{ witBlender with edit := true }] },
                witSolverEditing]
    transforms := [("J_l_shoulder", idMat), ("J_l_elbow", witMatA),
                   ("J_l_hip", idMat), ("J_l_knee", idMat)] }

end PoseWrangler

namespace PoseWrangler

namespace SolverState

theorem wf_props {s : SolverState} (h : wf s = true) : WFProps s := by
  simp only [wf, Bool.and_eq_true, List.all_eq_true, beq_iff_eq, bne_iff_ne,
    decide_eq_true_eq, Bool.or_eq_true, Bool.not_eq_true', List.isEmpty_iff,
    List.isEmpty_eq_false] at h
  obtain ⟨⟨⟨⟨⟨⟨h1, h2⟩, h3⟩, h4⟩, h5⟩, h6⟩, h7⟩ := h
  refine ⟨?_, h2, ?_, ?_, ?_, ?_, ?_, ?_, h4, h5, h6, ?_⟩ <;>
    first
    | (intro t ht; first
        | exact (h1 t ht).1.1.1.1
        | exact (h1 t ht).1.1.1.2
        | exact (h1 t ht).1.1.2
        | (intro m hm; exact (h1 t ht).1.2 m hm)
        | (intro m hm; exact (h1 t ht).2 m hm))
    | (intro b hb; first
        | exact (h3 b hb).1
        | (intro m hm; exact (h3 b hb).2 m hm))
    | (intro hne; rcases h7 with h7 | h7
       · exact absurd h7 hne
       · exact h7)

theorem upsert_of_not_mem {β : Type} (l : List (String × β)) (k : String)
    (v : β) (h : ∀ p ∈ l, p.1 ≠ k) : upsert l k v = l ++ [(k, v)] := by
  induction l with
  | nil => rfl
  | cons p rest ih =>
    simp only [upsert]
    rw [if_neg (h p (List.mem_cons_self p rest))]
    simp only [List.cons_append, List.cons.injEq, true_and]
    exact ih (fun q hq => h q (List.mem_cons_of_mem p hq))

theorem findIdxName_of_not_mem (l : List PoseTarget) (name : String)
    (h : ∀ t ∈ l, t.targetName ≠ name) : findIdxName l name = none := by
  induction l with
  | nil => rfl
  | cons t rest ih =>
    simp only [findIdxName]
    rw [if_neg (h t (List.mem_cons_self t rest))]
    rw [ih (fun x hx => h x (List.mem_cons_of_mem t hx))]
    rfl

theorem findIdxName_append (pre : List PoseTarget) (t : PoseTarget)
    (suf : List PoseTarget) (name : String) (ht : t.targetName = name)
    (hpre : ∀ x ∈ pre, x.targetName ≠ name) :
    findIdxName (pre ++ t :: suf) name = some pre.length := by
  induction pre with
  | nil => simp [findIdxName, ht]
  | cons x rest ih =>
    simp only [List.cons_append, findIdxName]
    rw [if_neg (hpre x (List.mem_cons_self x rest))]
    rw [show rest.append (t :: suf) = rest ++ t :: suf from rfl,
      ih (fun y hy => hpre y (List.mem_cons_of_mem x hy))]
    rfl

theorem getD_middle {α : Type} [Inhabited α] (pre : List α) (t : α)
    (suf : List α) : (pre ++ t :: suf).getD pre.length default = t := by
  induction pre with
  | nil => rfl
  | cons x rest ih => simpa using ih

theorem exceptBind_ok {ε α β : Type} (a : α) (f : α → Except ε β) :
    (Except.ok a >>= f) = f a := rfl

theorem exceptBind_err {ε α β : Type} (e : ε) (f : α → Except ε β) :
    ((Except.error e : Except ε α) >>= f) = .error e := rfl

theorem exceptPure {ε α : Type} (a : α) : (pure a : Except ε α) = .ok a := rfl

theorem rowsFrom_append (s : SolverState) (i : Nat) (pre suf : List PoseTarget) :
    rowsFrom s i (pre ++ suf) = rowsFrom s i pre ++ rowsFrom s (i + pre.length) suf := by
  induction pre generalizing i with
  | nil => simp [rowsFrom]
  | cons t rest ih =>
    simp only [List.cons_append, rowsFrom, List.length_cons]
    rw [show rest.append suf = rest ++ suf from rfl, ih (i + 1)]
    simp only [List.cons_append, List.cons.injEq, true_and]
    congr 2
    omega

theorem rowsFrom_keys (s : SolverState) (i : Nat) (ts : List PoseTarget) :
    (rowsFrom s i ts).map Prod.fst = ts.map PoseTarget.targetName := by
  induction ts generalizing i with
  | nil => rfl
  | cons t rest ih => simp [rowsFrom, ih]

theorem pose_of_split (s : SolverState) (pre : List PoseTarget)
    (t : PoseTarget) (suf : List PoseTarget)
    (hsplit : s.targets = pre ++ t :: suf)
    (hpre : ∀ x ∈ pre, x.targetName ≠ t.targetName)
    (hv0 : t.targetValues.length ≠ 0)
    (hv : t.targetValues.length = s.num_drivers)
    (hc : t.targetControllers.length = s.num_controllers) :
    s.pose t.targetName = .ok (mkPoseData s pre.length t) := by
  unfold pose
  rw [hsplit, findIdxName_append pre t suf t.targetName rfl hpre]
  simp only [getD_middle]
  rw [if_neg hv0, if_neg (by simp [hv]), if_neg (by simp [hc])]
  rfl

theorem posesGo_eq (s : SolverState)
    (hnodup : (s.targets.map PoseTarget.targetName).Nodup)
    (harr : ∀ t ∈ s.targets, t.targetValues.length ≠ 0 ∧
      t.targetValues.length = s.num_drivers ∧
      t.targetControllers.length = s.num_controllers)
    (hne : ∀ t ∈ s.targets, t.targetName ≠ "") :
    ∀ (suf pre : List PoseTarget), s.targets = pre ++ suf →
      posesGo s suf (rowsFrom s 0 pre)
        = .ok (rowsFrom s 0 pre ++ rowsFrom s pre.length suf) := by
  intro suf
  induction suf with
  | nil => intro pre _; simp [posesGo, rowsFrom]
  | cons t rest ih =>
    intro pre hsplit
    have htmem : t ∈ s.targets := by rw [hsplit]; simp
    have hpre : ∀ x ∈ pre, x.targetName ≠ t.targetName := by
      intro x hx
      have hnd := hnodup
      rw [hsplit, List.map_append, List.map_cons, List.nodup_append] at hnd
      intro hcontra
      exact hnd.2.2 (hcontra ▸ List.mem_map_of_mem _ hx)
        (List.mem_cons_self _ _)
    obtain ⟨hv0, hv, hc⟩ := harr t htmem
    have hkeys : ∀ p ∈ rowsFrom s 0 pre, p.1 ≠ t.targetName := by
      intro p hp
      have hmem : p.1 ∈ (rowsFrom s 0 pre).map Prod.fst := List.mem_map_of_mem _ hp
      rw [rowsFrom_keys] at hmem
      obtain ⟨x, hx, hxeq⟩ := List.mem_map.mp hmem
      exact hxeq ▸ hpre x hx
    have hup := upsert_of_not_mem (rowsFrom s 0 pre) t.targetName
      (mkPoseData s pre.length t) hkeys
    have hstep := ih (pre ++ [t]) (by simpa using hsplit)
    rw [rowsFrom_append, rowsFrom, rowsFrom] at hstep
    simp only [Nat.zero_add, List.length_append, List.length_cons,
      List.length_nil, List.append_nil] at hstep
    rw [posesGo, if_neg (hne t htmem),
      pose_of_split s pre t rest hsplit hpre hv0 hv hc]
    show s.posesGo rest
      (upsert (s.rowsFrom 0 pre) t.targetName (s.mkPoseData pre.length t)) = _
    rw [hup, hstep]
    simp [rowsFrom, List.append_assoc]

/-- `poses()` succeeds and yields one row per target, in index order,
whenever the target names are distinct and nonempty and every target's
matrix counts line up. -/
theorem posesE_eq (s : SolverState)
    (hnodup : (s.targets.map PoseTarget.targetName).Nodup)
    (harr : ∀ t ∈ s.targets, t.targetValues.length ≠ 0 ∧
      t.targetValues.length = s.num_drivers ∧
      t.targetControllers.length = s.num_controllers)
    (hne : ∀ t ∈ s.targets, t.targetName ≠ "") :
    s.posesE = .ok (rowsFrom s 0 s.targets) := by
  have hgo := posesGo_eq s hnodup harr hne s.targets [] rfl
  simpa [posesE, rowsFrom] using hgo

theorem has_poseE_not_mem (s : SolverState)
    (hnodup : (s.targets.map PoseTarget.targetName).Nodup)
    (harr : ∀ t ∈ s.targets, t.targetValues.length ≠ 0 ∧
      t.targetValues.length = s.num_drivers ∧
      t.targetControllers.length = s.num_controllers)
    (hne : ∀ t ∈ s.targets, t.targetName ≠ "") (name : String)
    (hname : name ∉ s.targets.map PoseTarget.targetName) :
    s.has_poseE name = .ok false := by
  rw [has_poseE, posesE_eq s hnodup harr hne]
  refine congrArg Except.ok (List.any_eq_false.mpr ?_)
  intro p hp
  simp only [decide_eq_true_eq]
  intro hcon
  apply hname
  rw [← rowsFrom_keys s 0 s.targets]
  exact hcon ▸ List.mem_map_of_mem _ hp

/-- The three `posesE_eq` side conditions, extracted from `WFProps`. -/
theorem wfArr (s : SolverState) (h : WFProps s) :
    ∀ t ∈ s.targets, t.targetValues.length ≠ 0 ∧
      t.targetValues.length = s.num_drivers ∧
      t.targetControllers.length = s.num_controllers := by
  intro t ht
  refine ⟨?_, h.values_len t ht, h.ctrl_len t ht⟩
  rw [h.values_len t ht]
  have hcon : s.targets ≠ [] := by
    intro hcon; rw [hcon] at ht; exact absurd ht (by simp)
  have hd := h.drivers_of_targets hcon
  simpa [List.length_eq_zero] using hd

/-- On a well-formed state, `poses()` succeeds and yields one row per
target, in index order. -/
theorem posesE_wf (s : SolverState) (h : WFProps s) :
    s.posesE = .ok (rowsFrom s 0 s.targets) :=
  posesE_eq s h.names_nodup (wfArr s h) h.names_ne

theorem has_poseE_wf_not_mem (s : SolverState) (h : WFProps s) (name : String)
    (hname : name ∉ s.targets.map PoseTarget.targetName) :
    s.has_poseE name = .ok false :=
  has_poseE_not_mem s h.names_nodup (wfArr s h) h.names_ne name hname

theorem has_poseE_wf_mem (s : SolverState) (h : WFProps s) (name : String)
    (hname : name ∈ s.targets.map PoseTarget.targetName) :
    s.has_poseE name = .ok true := by
  rw [has_poseE, posesE_wf s h]
  refine congrArg Except.ok (List.any_eq_true.mpr ?_)
  rw [← rowsFrom_keys s 0 s.targets] at hname
  obtain ⟨p, hp, hpeq⟩ := List.mem_map.mp hname
  exact ⟨p, hp, by simp [hpeq]⟩

theorem setAt_append_len {β : Type} (xs ys : List β) (v : β) :
    setAt (xs ++ ys) xs.length v = xs ++ setAt ys 0 v := by
  cases ys with
  | nil =>
    unfold setAt
    simp
  | cons y t =>
    unfold setAt
    rw [if_pos (by simp), if_pos (by simp)]
    induction xs with
    | nil => simp
    | cons x xt ih => simpa using ih

theorem applyRecords_spec {β : Type} :
    ∀ (vs xs ys : List β),
      applyRecords (xs ++ ys) xs.length vs = xs ++ vs ++ ys.drop vs.length := by
  intro vs
  induction vs with
  | nil => intro xs ys; simp [applyRecords]
  | cons v vt ih =>
    intro xs ys
    rw [applyRecords, setAt_append_len]
    cases ys with
    | nil =>
      have h1 : setAt ([] : List β) 0 v = [v] := rfl
      rw [h1, show xs ++ [v] = (xs ++ [v]) ++ [] by simp,
        show xs.length + 1 = (xs ++ [v]).length by simp, ih]
      simp
    | cons y yt =>
      have h1 : setAt (y :: yt) 0 v = v :: yt := by
        unfold setAt; rw [if_pos (by simp)]; rfl
      rw [h1, show xs ++ v :: yt = (xs ++ [v]) ++ yt by simp,
        show xs.length + 1 = (xs ++ [v]).length by simp, ih]
      simp

theorem applyRecords_zero {β : Type} (vs l : List β) :
    applyRecords l 0 vs = vs ++ l.drop vs.length := by
  simpa using applyRecords_spec vs [] l

theorem blendersRecord_ok (sc : TScene) (s : SolverState) (pose_idx : Nat)
    (driven_matrices : List (String × Mat)) :
    ∀ (bs : List PoseBlenderState),
      (∀ b ∈ bs, ∃ m, driven_matrices.lookup b.drivenTransform = some m ∧
        m.isEmpty = false) →
      blendersRecord sc s pose_idx driven_matrices bs
        = .ok (bs.map (fun b =>
            { b with
                poses := setAt b.poses pose_idx
                  ((driven_matrices.lookup b.drivenTransform).getD idMat)
                weights := setAt b.weights pose_idx (outputAttr s pose_idx) })) := by
  intro bs
  induction bs with
  | nil => intro _; rfl
  | cons b rest ih =>
    intro h
    obtain ⟨m, hm, hne⟩ := h b (List.mem_cons_self b rest)
    have hval : blenderPoseValue sc driven_matrices b = .ok m := by
      unfold blenderPoseValue
      rw [hm]
      simp [hne]
    rw [blendersRecord, hval, ih (fun x hx => h x (List.mem_cons_of_mem b hx))]
    simp [hm]

/-- `add_pose` on a state where every check passes: the appended target
and the per-blender updates, in closed form. -/
theorem add_pose_ok (sc : TScene) (s : SolverState) (pose_name : String)
    (matrices controller_matrices : List Mat)
    (driven_matrices : List (String × Mat)) (ft dm : String) (sf : ℚ)
    (te : Bool)
    (hD : ¬s.num_drivers = 0)
    (hnp : s.has_poseE pose_name = .ok false)
    (har : matrices.length = s.num_drivers)
    (hctrl : (controller_matrices.isEmpty ∧ s.controllers = []) ∨
      (controller_matrices.isEmpty = false ∧
        controller_matrices.length = s.num_controllers))
    (hb : ∀ b ∈ s.poseBlenders, ∃ m,
      driven_matrices.lookup b.drivenTransform = some m ∧ m.isEmpty = false) :
    add_pose sc s pose_name matrices controller_matrices driven_matrices
      ft dm sf te
      = .ok (afterAddPose s pose_name matrices controller_matrices
          driven_matrices te) := by
  unfold add_pose afterAddPose
  rw [if_neg hD, hnp]
  show (if matrices.length ≠ s.num_drivers then _ else _) = _
  rw [if_neg (by simp [har])]
  rw [if_neg (by
    rcases hctrl with ⟨h1, _⟩ | ⟨h1, h2⟩
    · simp [h1]
    · simp [h1, h2])]
  rw [if_neg (by
    rcases hctrl with ⟨h1, h2⟩ | ⟨h1, _⟩
    · simp [h1, h2, num_controllers]
    · simp [h1])]
  rw [blendersRecord_ok sc s s.num_poses driven_matrices s.poseBlenders hb]
  rfl

/-- A run of `add_pose` calls over disjoint fresh names on a state
whose existing targets are well-shaped succeeds and produces
`afterAddPoses` — the invariant behind both `create_from_data`'s pose
loop and `delete_pose`'s rebuild loop. -/
theorem addPosesFold_ok (sc : TScene) :
    ∀ (ps : List (String × PoseData)) (s0 : SolverState),
      (s0.targets.map PoseTarget.targetName ++ ps.map Prod.fst).Nodup →
      (∀ t ∈ s0.targets, t.targetName ≠ "") →
      (∀ p ∈ ps, p.1 ≠ "") →
      (∀ t ∈ s0.targets, t.targetValues.length = s0.drivers.length ∧
        t.targetControllers.length = s0.controllers.length) →
      s0.drivers ≠ [] →
      (∀ p ∈ ps, p.2.drivers.length = s0.drivers.length) →
      (∀ p ∈ ps, (p.2.controllers.isEmpty ∧ s0.controllers = []) ∨
        (p.2.controllers.isEmpty = false ∧
          p.2.controllers.length = s0.controllers.length)) →
      (∀ p ∈ ps, ∀ b ∈ s0.poseBlenders, ∃ m,
        p.2.driven.lookup b.drivenTransform = some m ∧ m.isEmpty = false) →
      addPosesFold sc s0 ps = .ok (afterAddPoses s0 ps) := by
  intro ps
  induction ps with
  | nil =>
    intro s0 _ _ _ _ _ _ _ _
    unfold addPosesFold afterAddPoses
    simp only [List.map_nil, List.append_nil, List.isEmpty_nil, if_true,
      List.length_nil]
    rw [show (fun (b : PoseBlenderState) =>
      { b with poses := applyRecords b.poses s0.num_poses []
               weights := applyRecords b.weights s0.num_poses
                 ((List.range' s0.num_poses 0).map (outputAttrName s0.name)) })
        = id from rfl, List.map_id]
  | cons p ps ih =>
    intro s0 hnodup hne0 hnep harr0 hD harr hctrl hbm
    have hmem0 : p ∈ p :: ps := List.mem_cons_self p ps
    have hDn : ¬s0.num_drivers = 0 := by
      simpa [num_drivers, List.length_eq_zero] using hD
    have hfresh : p.1 ∉ s0.targets.map PoseTarget.targetName := by
      intro hcon
      rw [List.nodup_append] at hnodup
      exact hnodup.2.2 hcon (by simp)
    have hnp : s0.has_poseE p.1 = .ok false := by
      refine has_poseE_not_mem s0 ?_ ?_ hne0 p.1 hfresh
      · exact (List.nodup_append.mp hnodup).1
      · intro t ht
        obtain ⟨h1, h2⟩ := harr0 t ht
        refine ⟨?_, h1, h2⟩
        rw [h1]
        simpa [List.length_eq_zero] using hD
    have hstep := add_pose_ok sc s0 p.1 p.2.drivers p.2.controllers p.2.driven
      p.2.function_type p.2.distance_method p.2.scale_factor p.2.target_enable
      hDn hnp (harr p hmem0) (hctrl p hmem0) (hbm p hmem0)
    have hs1targets : (afterAddPose s0 p.1 p.2.drivers p.2.controllers
        p.2.driven p.2.target_enable).targets
        = s0.targets ++ [mkTargetOf p] := rfl
    have hrest : addPosesFold sc
        (afterAddPose s0 p.1 p.2.drivers p.2.controllers p.2.driven
          p.2.target_enable) ps
        = .ok (afterAddPoses
            (afterAddPose s0 p.1 p.2.drivers p.2.controllers p.2.driven
              p.2.target_enable) ps) := by
      refine ih _ ?_ ?_ ?_ ?_ ?_ ?_ ?_ ?_
      · rw [hs1targets, List.map_append]
        simpa [mkTargetOf, mkTarget, List.append_assoc] using hnodup
      · rw [hs1targets]
        intro t ht
        rcases List.mem_append.mp ht with h | h
        · exact hne0 t h
        · rcases List.mem_singleton.mp h with rfl
          exact hnep p hmem0
      · exact fun q hq => hnep q (List.mem_cons_of_mem p hq)
      · rw [hs1targets]
        intro t ht
        rcases List.mem_append.mp ht with h | h
        · exact harr0 t h
        · rcases List.mem_singleton.mp h with rfl
          refine ⟨harr p hmem0, ?_⟩
          rcases hctrl p hmem0 with ⟨h1, h2⟩ | ⟨_, h2⟩
          · rw [List.isEmpty_iff] at h1
            simp [mkTargetOf, mkTarget, afterAddPose, h1, h2]
          · exact h2
      · exact hD
      · exact fun q hq => harr q (List.mem_cons_of_mem p hq)
      · exact fun q hq => hctrl q (List.mem_cons_of_mem p hq)
      · intro q hq b hb
        simp only [afterAddPose, List.mem_map] at hb
        obtain ⟨b0, hb0, rfl⟩ := hb
        exact hbm q (List.mem_cons_of_mem p hq) b0 hb0
    have hshape : afterAddPoses
        (afterAddPose s0 p.1 p.2.drivers p.2.controllers p.2.driven
          p.2.target_enable) ps
        = afterAddPoses s0 (p :: ps) := by
      unfold afterAddPoses afterAddPose
      have hlen : (s0.targets ++ [mkTarget p.1 p.2.drivers p.2.controllers
          p.2.target_enable]).length = s0.targets.length + 1 := by simp
      simp only [SolverState.mk.injEq, num_poses, hlen, true_and, and_true]
      refine ⟨?_, ?_, ?_⟩
      · simp [mkTargetOf, List.append_assoc]
      · rw [List.map_map]
        rfl
      · rw [List.length_cons]
        cases hq : ps.isEmpty
        · rw [if_neg (by simp [hq]), if_neg (by simp)]
          rw [Nat.max_assoc]
          congr 1
          rw [Nat.max_eq_right (by omega)]
          omega
        · rw [if_pos (by simp [hq]), if_neg (by simp)]
          rw [List.isEmpty_iff] at hq
          simp [hq]
    rw [addPosesFold, hstep]
    show addPosesFold sc (afterAddPose s0 p.1 p.2.drivers p.2.controllers
      p.2.driven p.2.target_enable) ps = _
    rw [hrest, hshape]

theorem rowsFrom_length (s : SolverState) :
    ∀ (ts : List PoseTarget) (i : Nat), (rowsFrom s i ts).length = ts.length := by
  intro ts
  induction ts with
  | nil => intro i; rfl
  | cons t rest ih => intro i; simp [rowsFrom, ih]

theorem blendersErase_ok (pose_idx : Nat) :
    ∀ (bs : List PoseBlenderState), (∀ b ∈ bs, pose_idx < b.poses.length) →
      blendersErase pose_idx bs
        = .ok (bs.map (fun b => { b with poses := b.poses.eraseIdx pose_idx })) := by
  intro bs
  induction bs with
  | nil => intro _; rfl
  | cons b rest ih =>
    intro hl
    rw [blendersErase, if_pos (hl b (List.mem_cons_self b rest)),
      ih (fun x hx => hl x (List.mem_cons_of_mem b hx))]
    rfl

theorem lookup_map_blender (f : PoseBlenderState → Mat) :
    ∀ (bs : List PoseBlenderState),
      (bs.map PoseBlenderState.drivenTransform).Nodup →
      ∀ b ∈ bs,
        (bs.map (fun x => (x.drivenTransform, f x))).lookup b.drivenTransform
          = some (f b) := by
  intro bs
  induction bs with
  | nil => intro _ b hb; exact absurd hb (by simp)
  | cons x rest ih =>
    intro hnodup b hb
    rcases List.mem_cons.mp hb with rfl | hb
    · simp [List.lookup]
    · rw [List.map_cons, List.nodup_cons] at hnodup
      have hneq : (b.drivenTransform == x.drivenTransform) = false := by
        rw [beq_eq_false_iff_ne]
        intro hcon
        exact hnodup.1 (hcon ▸ List.mem_map_of_mem _ hb)
      simp only [List.map_cons, List.lookup, hneq]
      exact ih hnodup.2 b hb

theorem getD_mem {α : Type} (l : List α) (i : Nat) (d : α)
    (h : i < l.length) : l.getD i d ∈ l := by
  rw [List.getD_eq_getElem l d h]
  exact List.getElem_mem h

theorem rowsFrom_map_record (s : SolverState) (b : PoseBlenderState)
    (hb : b ∈ s.poseBlenders)
    (hnodup : (s.poseBlenders.map PoseBlenderState.drivenTransform).Nodup) :
    ∀ (ts : List PoseTarget) (j : Nat),
      (rowsFrom s j ts).map (fun p =>
          (p.2.driven.lookup b.drivenTransform).getD idMat)
        = (List.range' j ts.length).map (fun k => b.poses.getD k idMat) := by
  intro ts
  induction ts with
  | nil => intro j; rfl
  | cons t rest ih =>
    intro j
    rw [rowsFrom, List.map_cons, List.length_cons, List.range'_succ,
      List.map_cons, ih (j + 1)]
    rw [show (mkPoseData s j t).driven
      = s.poseBlenders.map (fun x => (x.drivenTransform, blenderGetPose x j))
      from rfl]
    rw [lookup_map_blender (fun x => blenderGetPose x j) s.poseBlenders hnodup b hb]
    rfl

theorem map_getD_range' {α : Type} (l : List α) (d : α) :
    ∀ (c k : Nat), k + c ≤ l.length →
      (List.range' k c).map (fun j => l.getD j d) = (l.drop k).take c := by
  intro c
  induction c with
  | zero => intro k _; simp
  | succ n ih =>
    intro k hk
    have hkl : k < l.length := by omega
    rw [List.range'_succ, List.map_cons, ih (k + 1) (by omega)]
    rw [List.drop_eq_getElem_cons hkl, List.take_succ_cons,
      List.getD_eq_getElem l d hkl]

theorem rowsFrom_mem (s : SolverState) :
    ∀ (ts : List PoseTarget) (j : Nat) (p : String × PoseData),
      p ∈ rowsFrom s j ts →
      ∃ x ∈ ts, ∃ k, j ≤ k ∧ k < j + ts.length ∧
        p = (x.targetName, mkPoseData s k x) := by
  intro ts
  induction ts with
  | nil => intro j p hp; exact absurd hp (by simp [rowsFrom])
  | cons t rest ih =>
    intro j p hp
    rw [rowsFrom] at hp
    rcases List.mem_cons.mp hp with rfl | hp
    · exact ⟨t, by simp, j, le_refl j, by simp, rfl⟩
    · obtain ⟨x, hx, k, hk1, hk2, hpeq⟩ := ih (j + 1) p hp
      exact ⟨x, List.mem_cons_of_mem t hx, k, by omega,
        by simp only [List.length_cons]; omega, hpeq⟩

theorem rowsFrom_map_target (s : SolverState) :
    ∀ (ts : List PoseTarget) (j : Nat),
      ((rowsFrom s j ts).map mkTargetOf).map targetProj = ts.map targetProj := by
  intro ts
  induction ts with
  | nil => intro j; rfl
  | cons t rest ih =>
    intro j
    rw [rowsFrom, List.map_cons, List.map_cons, ih (j + 1), List.map_cons]
    rfl

end SolverState

/-- C2: mirroring `arm_l_UERBFSolver` with the MetaHuman mapping yields
`arm_r_UERBFSolver` (with the mapping unchanged, since the matched token
was the source-side one), and deriving again from that result with the
same mapping object yields `arm_l_UERBFSolver` — the derivation composed
with itself is the identity on this name. -/
theorem mirrored_name_involution :
    getMirroredSolverName metahuman "arm_l_UERBFSolver"
      = .ok ("arm_r_UERBFSolver", metahuman) ∧
    (getMirroredSolverName metahuman "arm_r_UERBFSolver").map Prod.fst
      = .ok "arm_l_UERBFSolver" := by
  constructor <;> rfl

/-- Inversion of a successful `metahumanMatch`: the `side` group is one
of the two tokens, the `suffix` group is a nonempty alphanumeric string,
and a participating `prefix` group is a nonempty alphanumeric string. -/
theorem metahumanMatch_some (s : String) (g1 : Option String)
    (side suf : String)
    (h : metahumanMatch s = some (g1, side, suf)) :
    (side = "_l_" ∨ side = "_r_") ∧
    (suf ≠ "" ∧ ∀ c ∈ suf.data, alnum c = true) ∧
    (∀ p, g1 = some p → p ≠ "" ∧ ∀ c ∈ p.data, alnum c = true) := by
  have h' : (match s.toList.dropWhile alnum with
      | '_' :: sideC :: '_' :: rest =>
        if sideC = 'l' ∨ sideC = 'r' then
          if (rest.takeWhile alnum).isEmpty then none
          else some
            (if (s.toList.takeWhile alnum).isEmpty then none
             else some (String.mk (s.toList.takeWhile alnum)),
             String.mk ['_', sideC, '_'],
             String.mk (rest.takeWhile alnum))
        else none
      | _ => none) = some (g1, side, suf) := h
  clear h
  split at h'
  next sideC rest heq =>
    split at h'
    next hc =>
      split at h'
      next hemp => exact absurd h' (by simp)
      next hemp =>
        simp only [Option.some.injEq, Prod.mk.injEq] at h'
        obtain ⟨hg1, hside, hsuf⟩ := h'
        refine ⟨?_, ?_, ?_⟩
        · rcases hc with rfl | rfl
          · exact Or.inl (by rw [← hside])
          · exact Or.inr (by rw [← hside])
        · constructor
          · intro hcon
            rw [← hsuf] at hcon
            have hz : rest.takeWhile alnum = [] := by
              have hd := congrArg String.data hcon
              simpa using hd
            rw [hz] at hemp
            simp at hemp
          · intro c hcmem
            rw [← hsuf] at hcmem
            exact List.mem_takeWhile_imp hcmem
        · intro p hp
          rw [← hg1] at hp
          by_cases hpe : (s.toList.takeWhile alnum).isEmpty
          · rw [if_pos hpe] at hp
            exact absurd hp (by simp)
          · rw [if_neg hpe] at hp
            obtain rfl := (Option.some.inj hp).symm
            constructor
            · intro hcon
              have hz : s.toList.takeWhile alnum = [] := by
                have hd := congrArg String.data hcon
                simpa using hd
              rw [hz] at hpe
              simp at hpe
            · intro c hcmem
              exact List.mem_takeWhile_imp hcmem
    next hc => exact absurd h' (by simp)
  next heq => exact absurd h' (by simp)

/-- A string of alphanumeric characters is never one of the MetaHuman
side tokens, which contain an underscore. -/
theorem alnum_not_token (q : String) (hq : ∀ c ∈ q.data, alnum c = true) :
    q ≠ "_l_" ∧ q ≠ "_r_" := by
  constructor <;> intro hcon <;> subst hcon
  · exact absurd (hq '_' (by decide)) (by decide)
  · exact absurd (hq '_' (by decide)) (by decide)

/-- C10: for every solver name the MetaHuman expression matches, the
derived mirrored name is exactly the concatenation of the captured
groups with the side token substituted (swapping the mapping's sides
when the matched token was the target-side one); and for every solver
name that matches while the optional `prefix` group does not participate,
the derivation — under any mapping — raises `TypeError` (from
concatenating the `None` group), not `InvalidMirrorMapping`. -/
theorem mirrored_name_totality (solverName : String) (side suf : String) :
    (∀ p, metahumanMatch solverName = some (some p, side, suf) →
      getMirroredSolverName metahuman solverName
        = .ok (p ++ (if side = "_l_" then "_r_" else "_l_") ++ suf,
               if side = "_l_" then metahuman else metahuman.swap_sides)) ∧
    (∀ m : MirrorMapping, metahumanMatch solverName = some (none, side, suf) →
      getMirroredSolverName m solverName = .error .typeError) := by
  constructor
  · intro p hm
    obtain ⟨hside, ⟨_, hsufal⟩, hpfact⟩ :=
      metahumanMatch_some solverName (some p) side suf hm
    obtain ⟨_, hpal⟩ := hpfact p rfl
    obtain ⟨hpl, hpr⟩ := alnum_not_token p hpal
    obtain ⟨hsl, hsr⟩ := alnum_not_token suf hsufal
    have hchain : getMirroredSolverName metahuman solverName
        = (mirrorGroupStep ("", metahuman) (some p) >>= fun r1 =>
           mirrorGroupStep r1 (some side) >>= fun r2 =>
           mirrorGroupStep r2 (some suf) >>= fun r3 => pure r3) := by
      unfold getMirroredSolverName
      rw [hm]
      rfl
    have hstep1 : mirrorGroupStep ("", metahuman) (some p)
        = .ok (p, metahuman) := by
      show (if some p = some metahuman.source_solver_syntax then
              Except.ok (("" : String) ++ metahuman.target_solver_syntax,
                metahuman)
            else if some p = some metahuman.target_solver_syntax then
              Except.ok ("" ++ metahuman.source_solver_syntax,
                metahuman.swap_sides)
            else match some p with
                 | none => Except.error NameErr.typeError
                 | some str => Except.ok ("" ++ str, metahuman)) = _
      rw [if_neg (show ¬(some p = some metahuman.source_solver_syntax) from
          fun hcon => hpl (Option.some.inj hcon)),
        if_neg (show ¬(some p = some metahuman.target_solver_syntax) from
          fun hcon => hpr (Option.some.inj hcon))]
      rfl
    rcases hside with rfl | rfl
    · have hstep2 : mirrorGroupStep (p, metahuman) (some "_l_")
          = .ok (p ++ "_r_", metahuman) := by
        show (if some "_l_" = some metahuman.source_solver_syntax then
                Except.ok (p ++ metahuman.target_solver_syntax, metahuman)
              else if some "_l_" = some metahuman.target_solver_syntax then
                Except.ok (p ++ metahuman.source_solver_syntax,
                  metahuman.swap_sides)
              else match some "_l_" with
                   | none => Except.error NameErr.typeError
                   | some str => Except.ok (p ++ str, metahuman)) = _
        rw [if_pos (show some "_l_"
            = some metahuman.source_solver_syntax from rfl)]
        rfl
      have hstep3 : mirrorGroupStep (p ++ "_r_", metahuman) (some suf)
          = .ok ((p ++ "_r_") ++ suf, metahuman) := by
        show (if some suf = some metahuman.source_solver_syntax then
                Except.ok ((p ++ "_r_") ++ metahuman.target_solver_syntax,
                  metahuman)
              else if some suf = some metahuman.target_solver_syntax then
                Except.ok ((p ++ "_r_") ++ metahuman.source_solver_syntax,
                  metahuman.swap_sides)
              else match some suf with
                   | none => Except.error NameErr.typeError
                   | some str => Except.ok ((p ++ "_r_") ++ str, metahuman)) = _
        rw [if_neg (show ¬(some suf = some metahuman.source_solver_syntax) from
            fun hcon => hsl (Option.some.inj hcon)),
          if_neg (show ¬(some suf = some metahuman.target_solver_syntax) from
            fun hcon => hsr (Option.some.inj hcon))]
      rw [hchain]
      simp only [hstep1, hstep2, hstep3, SolverState.exceptBind_ok,
        SolverState.exceptPure]
      simp
    · have hne_rl : ¬(("_r_" : String) = "_l_") := by decide
      have hstep2 : mirrorGroupStep (p, metahuman) (some "_r_")
          = .ok (p ++ "_l_", metahuman.swap_sides) := by
        show (if some "_r_" = some metahuman.source_solver_syntax then
                Except.ok (p ++ metahuman.target_solver_syntax, metahuman)
              else if some "_r_" = some metahuman.target_solver_syntax then
                Except.ok (p ++ metahuman.source_solver_syntax,
                  metahuman.swap_sides)
              else match some "_r_" with
                   | none => Except.error NameErr.typeError
                   | some str => Except.ok (p ++ str, metahuman)) = _
        rw [if_neg (show ¬(some "_r_"
              = some metahuman.source_solver_syntax) from
            fun hcon => hne_rl (Option.some.inj hcon)),
          if_pos (show some "_r_"
            = some metahuman.target_solver_syntax from rfl)]
        rfl
      have hstep3 : mirrorGroupStep (p ++ "_l_", metahuman.swap_sides) (some suf)
          = .ok ((p ++ "_l_") ++ suf, metahuman.swap_sides) := by
        show (if some suf = some metahuman.swap_sides.source_solver_syntax then
                Except.ok ((p ++ "_l_")
                    ++ metahuman.swap_sides.target_solver_syntax,
                  metahuman.swap_sides)
              else if some suf
                  = some metahuman.swap_sides.target_solver_syntax then
                Except.ok ((p ++ "_l_")
                    ++ metahuman.swap_sides.source_solver_syntax,
                  metahuman.swap_sides.swap_sides)
              else match some suf with
                   | none => Except.error NameErr.typeError
                   | some str =>
                     Except.ok ((p ++ "_l_") ++ str, metahuman.swap_sides)) = _
        rw [if_neg (show ¬(some suf
              = some metahuman.swap_sides.source_solver_syntax)
            from fun hcon => hsr (Option.some.inj hcon)),
          if_neg (show ¬(some suf
              = some metahuman.swap_sides.target_solver_syntax)
            from fun hcon => hsl (Option.some.inj hcon))]
      rw [hchain]
      simp only [hstep1, hstep2, hstep3, SolverState.exceptBind_ok,
        SolverState.exceptPure]
      simp [hne_rl]
  · intro m hm
    unfold getMirroredSolverName
    rw [hm]
    rfl

/-- Witness for C10: the derivation of `arm_l_UERBFSolver`'s mirrored
name through the general concatenation-substitution form, and the
`TypeError` raise for `_l_UERBFSolver`, whose `prefix` group does not
participate in the match. -/
theorem mirrored_name_totality_witness :
    getMirroredSolverName metahuman "arm_l_UERBFSolver"
      = .ok ("arm" ++ (if ("_l_" : String) = "_l_" then "_r_" else "_l_")
               ++ "UERBFSolver",
             if ("_l_" : String) = "_l_" then metahuman
             else metahuman.swap_sides) ∧
    getMirroredSolverName metahuman "_l_UERBFSolver" = .error .typeError :=
  ⟨(mirrored_name_totality "arm_l_UERBFSolver" "_l_" "UERBFSolver").1
      "arm" (by rfl),
   (mirrored_name_totality "_l_UERBFSolver" "_l_" "UERBFSolver").2
      metahuman (by rfl)⟩

/-- C4: on any solver holding more than one pose, `add_driver` fails
with the `DriverLimitExceeded` kind of error no matter which transforms
are offered; the guard fires before anything is written, so the
(immutably returned) solver state — its driver list and pose count —
is untouched. -/
theorem add_driver_after_poses_locked (sc : TScene) (s : SolverState)
    (transform_nodes : List String) (h : 1 < s.num_poses) :
    SolverState.add_driver sc s transform_nodes = .error .driverLimitExceeded := by
  unfold SolverState.add_driver
  rw [if_pos h]

/-- Witness for C4: the two-pose witness solver rejects a new driver. -/
theorem add_driver_after_poses_locked_witness :
    1 < witSolver.num_poses ∧
    SolverState.add_driver witScene witSolver ["J_r_shoulder"]
      = .error .driverLimitExceeded :=
  ⟨by decide,
   add_driver_after_poses_locked witScene witSolver ["J_r_shoulder"] (by decide)⟩

/-- C5: on any well-formed solver with at least one driver and a fresh
pose name, `add_pose` with a driver-matrix list whose length differs
from the driver count fails with the `ArityMismatch` kind of error —
regardless of the controller/driven arguments — and, the check firing
before any mutation, the returned error carries no changed state: the
pose count is unchanged and no matrices are stored. -/
theorem add_pose_arity_mismatch (sc : TScene) (s : SolverState)
    (pose_name : String) (matrices controller_matrices : List Mat)
    (driven_matrices : List (String × Mat)) (ft dm : String) (sf : ℚ)
    (te : Bool)
    (hwf : SolverState.wf s = true)
    (hD : 1 ≤ s.num_drivers)
    (hnew : pose_name ∉ s.targets.map PoseTarget.targetName)
    (hlen : matrices.length ≠ s.num_drivers) :
    SolverState.add_pose sc s pose_name matrices controller_matrices
      driven_matrices ft dm sf te = .error .arityMismatch := by
  have hprops := SolverState.wf_props hwf
  unfold SolverState.add_pose
  rw [if_neg (by omega : ¬s.num_drivers = 0),
    SolverState.has_poseE_wf_not_mem s hprops pose_name hnew]
  exact if_pos hlen

/-- Witness for C5: adding a two-matrix pose to the one-driver witness
solver fails with `ArityMismatch`. -/
theorem add_pose_arity_mismatch_witness :
    SolverState.wf witSolver = true ∧ 1 ≤ witSolver.num_drivers ∧
    "lowered" ∉ witSolver.targets.map PoseTarget.targetName ∧
    [idMat, witMatA].length ≠ witSolver.num_drivers ∧
    SolverState.add_pose witScene witSolver "lowered" [idMat, witMatA] [] []
      defaultFunctionType defaultDistanceMethod 1 true
      = .error .arityMismatch :=
  ⟨by decide, by decide, by decide, by decide,
   add_pose_arity_mismatch witScene witSolver "lowered" [idMat, witMatA] [] []
     defaultFunctionType defaultDistanceMethod 1 true
     (by decide) (by decide) (by decide) (by decide)⟩

/-- C9: on any solver, `is_pose_muted` / `mute_pose` called with a
non-empty pose name carried by no pose resolve the index to `-1` and
proceed to read / write `targets[-1].targetEnable` rather than raising;
the `InvalidPoseIndex` raise happens exactly when the pose name is empty
and the pose index is negative. -/
theorem mute_unknown_name_accesses_minus_one (s : SolverState)
    (pose_name : String) (h1 : pose_name ≠ "")
    (h2 : ∀ t ∈ s.targets, t.targetName ≠ pose_name) :
    s.is_pose_muted pose_name (-1) = .read (-1) ∧
    s.mute_pose pose_name (-1) true = .write (-1) false ∧
    (∀ (n : String) (i : Int),
      s.is_pose_muted n i = .invalidPoseIndex ↔ n = "" ∧ i < 0) ∧
    (∀ (n : String) (i : Int) (m : Bool),
      s.mute_pose n i m = .invalidPoseIndex ↔ n = "" ∧ i < 0) := by
  have hidx : s.pose_index pose_name = -1 := by
    unfold SolverState.pose_index
    rw [SolverState.findIdxName_of_not_mem s.targets pose_name h2]
  refine ⟨?_, ?_, ?_, ?_⟩
  · unfold SolverState.is_pose_muted
    rw [if_pos ⟨by norm_num, h1⟩, hidx]
  · unfold SolverState.mute_pose
    rw [if_pos ⟨by norm_num, h1⟩, hidx]
    rfl
  · intro n i
    unfold SolverState.is_pose_muted
    split_ifs with hA hB
    · simp only [reduceCtorEq, false_iff]
      intro hcon
      exact hA.2 hcon.1
    · simp only [true_iff]
      exact hB
    · simp only [reduceCtorEq, false_iff]
      intro hcon
      exact hB ⟨hcon.1, hcon.2⟩
  · intro n i m
    unfold SolverState.mute_pose
    split_ifs with hA hB
    · simp only [reduceCtorEq, false_iff]
      intro hcon
      exact hA.2 hcon.1
    · simp only [true_iff]
      exact hB
    · simp only [reduceCtorEq, false_iff]
      intro hcon
      exact hB ⟨hcon.1, hcon.2⟩

/-- Witness for C9: querying/muting the unknown pose `"ghost"` on the
witness solver accesses index `-1`. -/
theorem mute_unknown_name_accesses_minus_one_witness :
    witSolver.is_pose_muted "ghost" (-1) = .read (-1) ∧
    witSolver.mute_pose "ghost" (-1) true = .write (-1) false :=
  ⟨(mute_unknown_name_accesses_minus_one witSolver "ghost" (by decide)
      (by decide)).1,
   (mute_unknown_name_accesses_minus_one witSolver "ghost" (by decide)
      (by decide)).2.1⟩

/-- Counterexample to C7 as stated: in a two-solver scene whose second
solver is already in edit mode, entering edit mode on the first leaves
BOTH solvers in edit mode — the other solver is not forced out of edit
mode, so "at most one solver is in edit mode" fails. -/
theorem edit_solver_not_exclusive :
    witSceneM.solvers.map SolverState.get_solver_edit_status = [false, true] ∧
    (edit_solver witSceneM 0 true).map
        (fun sc' => sc'.solvers.map SolverState.get_solver_edit_status)
      = .ok [true, true] := by
  constructor <;> rfl

/-- C7 (amended): `edit_solver(S, edit=True)` puts every driven binding
of `S` itself into edit mode, and leaves every *other* solver's state —
including its bindings' edit flags — unchanged (`go_to_pose` only moves
scene transforms); the other solvers are merely sent to their
`'default'` pose, not forced out of edit mode. -/
theorem edit_solver_amended (sc : SceneM) (i : Nat) (sc' : SceneM)
    (h : edit_solver sc i true = .ok sc') :
    (∀ j, j ≠ i → sc'.solvers.get? j = sc.solvers.get? j) ∧
    (∀ s', sc'.solvers.get? i = some s' →
      ∀ b ∈ s'.poseBlenders, b.edit = true) := by
  unfold edit_solver at h
  split at h
  · exact absurd h (by simp)
  · next s hget =>
    split at h
    · exact absurd h (by simp)
    · next tr hforce =>
      cases h
      constructor
      · intro j hj
        simp only
        exact List.get?_set_ne _ _ (fun hcon => hj hcon.symm)
      · intro s' hs'
        have hlen : i < sc.solvers.length := by
          by_contra hcon
          rw [List.get?_eq_none.mpr (by omega)] at hget
          exact absurd hget (by simp)
        simp only [List.get?_eq_getElem?, List.getElem?_set_self hlen,
          Option.some.injEq] at hs'
        subst hs'
        intro b hb
        obtain ⟨b0, _, hbeq⟩ := List.mem_map.mp hb
        rw [← hbeq]

/-- C6: `delete_pose` fails with the `PoseNotFound` kind when no pose
carries the given name (the guard fires before any mutation); otherwise
it removes exactly that pose: the pose count drops by one, the remaining
poses are re-inserted at compacted indices with their names and stored
driver/controller matrices (and mute flags) intact, and every driven
binding's recorded-matrix list loses exactly the entry at the deleted
pose's index. -/
theorem delete_pose_contract (sc : TScene) (s : SolverState)
    (pose_name : String) (hwf : SolverState.wf s = true) :
    (pose_name ∉ s.targets.map PoseTarget.targetName →
      SolverState.delete_pose sc s pose_name = .error .poseNotFound) ∧
    (∀ pre t suf, s.targets = pre ++ t :: suf → t.targetName = pose_name →
      ∃ s', SolverState.delete_pose sc s pose_name = .ok s' ∧
        s'.num_poses + 1 = s.num_poses ∧
        s'.targets.map SolverState.targetProj
          = (pre ++ suf).map SolverState.targetProj ∧
        s'.poseBlenders.map (fun b => (b.drivenTransform, b.poses))
          = s.poseBlenders.map
              (fun b => (b.drivenTransform, b.poses.eraseIdx pre.length))) := by
  have h := SolverState.wf_props hwf
  constructor
  · intro hna
    unfold SolverState.delete_pose
    rw [SolverState.has_poseE_wf_not_mem s h pose_name hna]
  · intro pre t suf hsplit hname
    subst hname
    have hpre : ∀ x ∈ pre, x.targetName ≠ t.targetName := by
      intro x hx hcon
      have hnd := h.names_nodup
      rw [hsplit, List.map_append, List.map_cons, List.nodup_append] at hnd
      exact hnd.2.2 (hcon ▸ List.mem_map_of_mem _ hx) (List.mem_cons_self _ _)
    have hmem : t.targetName ∈ s.targets.map PoseTarget.targetName := by
      rw [hsplit]; simp
    have hfind : SolverState.findIdxName s.targets t.targetName
        = some pre.length := by
      rw [hsplit]
      exact SolverState.findIdxName_append pre t suf t.targetName rfl hpre
    have hblen : ∀ b ∈ s.poseBlenders, pre.length < b.poses.length := by
      intro b hb
      rw [h.blender_len b hb, hsplit, List.length_append, List.length_cons]
      omega
    have hberase := SolverState.blendersErase_ok pre.length s.poseBlenders hblen
    have hdropall :
        s.targets.drop (SolverState.rowsFrom s 0 s.targets).length = [] := by
      rw [SolverState.rowsFrom_length s s.targets 0]
      exact List.drop_length s.targets
    have hrows : SolverState.rowsFrom s 0 s.targets
        = SolverState.rowsFrom s 0 pre
          ++ (t.targetName, SolverState.mkPoseData s pre.length t)
            :: SolverState.rowsFrom s (pre.length + 1) suf := by
      rw [hsplit, SolverState.rowsFrom_append, Nat.zero_add]
      rfl
    have hremain : (SolverState.rowsFrom s 0 s.targets).eraseP
        (fun p => p.1 = t.targetName)
        = SolverState.rowsFrom s 0 pre
          ++ SolverState.rowsFrom s (pre.length + 1) suf := by
      rw [hrows, List.eraseP_append_right _ ?hpre]
      case hpre =>
        intro a ha
        have hk : a.1 ∈ pre.map PoseTarget.targetName := by
          rw [← SolverState.rowsFrom_keys s 0 pre]
          exact List.mem_map_of_mem _ ha
        obtain ⟨x, hx, hxeq⟩ := List.mem_map.mp hk
        simp only [decide_eq_true_eq]
        exact hxeq ▸ hpre x hx
      rw [List.eraseP_cons_of_pos (by simp)]
    have hsubmem : ∀ x, x ∈ pre ∨ x ∈ suf → x ∈ s.targets := by
      intro x hx
      rw [hsplit]
      rcases hx with hx | hx
      · exact List.mem_append_left _ hx
      · exact List.mem_append_right _ (List.mem_cons_of_mem t hx)
    have hdrNE : s.drivers ≠ [] := by
      refine h.drivers_of_targets ?_
      rw [hsplit]
      simp
    have hmemRemain : ∀ p ∈ SolverState.rowsFrom s 0 pre
        ++ SolverState.rowsFrom s (pre.length + 1) suf,
        ∃ x, (x ∈ pre ∨ x ∈ suf) ∧ ∃ k, k < s.targets.length ∧
          p = (x.targetName, SolverState.mkPoseData s k x) := by
      intro p hp
      rw [hsplit, List.length_append, List.length_cons]
      rcases List.mem_append.mp hp with hp | hp
      · obtain ⟨x, hx, k, _, hk2, hpeq⟩ := SolverState.rowsFrom_mem s pre 0 p hp
        exact ⟨x, Or.inl hx, k, by omega, hpeq⟩
      · obtain ⟨x, hx, k, _, hk2, hpeq⟩ :=
          SolverState.rowsFrom_mem s suf (pre.length + 1) p hp
        exact ⟨x, Or.inr hx, k, by omega, hpeq⟩
    have hfold := SolverState.addPosesFold_ok sc
      (SolverState.rowsFrom s 0 pre
        ++ SolverState.rowsFrom s (pre.length + 1) suf)
      { s with targets := ([] : List PoseTarget)
               poseBlenders := s.poseBlenders.map
                 (fun b => { b with poses := b.poses.eraseIdx pre.length }) }
      (by
        simp only [List.map_nil, List.nil_append, List.map_append,
          SolverState.rowsFrom_keys]
        have hnd := h.names_nodup
        rw [hsplit, List.map_append, List.map_cons] at hnd
        have hsub : (pre.map PoseTarget.targetName
            ++ suf.map PoseTarget.targetName).Sublist
            (pre.map PoseTarget.targetName
              ++ t.targetName :: suf.map PoseTarget.targetName) :=
          List.Sublist.append_left (List.sublist_cons_self _ _) _
        exact hnd.sublist hsub)
      (by intro x hx; exact absurd hx (by simp))
      (by
        intro p hp
        obtain ⟨x, hx, k, _, hpeq⟩ := hmemRemain p hp
        rw [hpeq]
        exact h.names_ne x (hsubmem x hx))
      (by intro x hx; exact absurd hx (by simp))
      hdrNE
      (by
        intro p hp
        obtain ⟨x, hx, k, _, hpeq⟩ := hmemRemain p hp
        rw [hpeq]
        exact h.values_len x (hsubmem x hx))
      (by
        intro p hp
        obtain ⟨x, hx, k, _, hpeq⟩ := hmemRemain p hp
        rw [hpeq]
        have hcl := h.ctrl_len x (hsubmem x hx)
        cases hc : s.controllers with
        | nil =>
          refine Or.inl ⟨?_, rfl⟩
          show x.targetControllers.isEmpty = true
          have hz : x.targetControllers = [] := by
            rw [← List.length_eq_zero, hcl, hc]
            rfl
          rw [hz]
          rfl
        | cons c cs =>
          refine Or.inr ⟨?_, hc ▸ hcl⟩
          show x.targetControllers.isEmpty = false
          rw [List.isEmpty_eq_false]
          intro hcon
          rw [hcon, hc] at hcl
          simp at hcl)
      (by
        intro p hp b hb
        simp only [List.mem_map] at hb
        obtain ⟨b0, hb0, rfl⟩ := hb
        obtain ⟨x, hx, k, hk, hpeq⟩ := hmemRemain p hp
        rw [hpeq]
        refine ⟨SolverState.blenderGetPose b0 k, ?_, ?_⟩
        · rw [show (SolverState.mkPoseData s k x).driven
            = s.poseBlenders.map
                (fun y => (y.drivenTransform, SolverState.blenderGetPose y k))
            from rfl]
          exact SolverState.lookup_map_blender _ s.poseBlenders
            h.blenders_nodup b0 hb0
        · have hkb : k < b0.poses.length := by
            rw [h.blender_len b0 hb0]; exact hk
          rw [List.isEmpty_eq_false]
          intro hcon
          have h16 : (SolverState.blenderGetPose b0 k).length = 16 :=
            h.blender_mats16 b0 hb0 _ (SolverState.getD_mem b0.poses k idMat hkb)
          rw [hcon] at h16
          exact absurd h16 (by simp))
    refine ⟨SolverState.afterAddPoses
      { s with targets := ([] : List PoseTarget)
               poseBlenders := s.poseBlenders.map
                 (fun b => { b with poses := b.poses.eraseIdx pre.length }) }
      (SolverState.rowsFrom s 0 pre
        ++ SolverState.rowsFrom s (pre.length + 1) suf), ?_, ?_, ?_, ?_⟩
    · have hstep : SolverState.delete_pose sc s t.targetName
          = match SolverState.blendersErase pre.length s.poseBlenders with
            | .error e => .error e
            | .ok blenders =>
              SolverState.addPosesFold sc
                { s with targets := s.targets.drop
                           (SolverState.rowsFrom s 0 s.targets).length
                         poseBlenders := blenders }
                ((SolverState.rowsFrom s 0 s.targets).eraseP
                  (fun p => p.1 = t.targetName)) := by
        unfold SolverState.delete_pose
        rw [SolverState.has_poseE_wf_mem s h t.targetName hmem,
          SolverState.posesE_wf s h, hfind]
      rw [hstep, hberase, hdropall, hremain]
      exact hfold
    · show (SolverState.afterAddPoses _ _).targets.length + 1 = s.targets.length
      rw [SolverState.afterAddPoses, hsplit]
      simp only [List.nil_append, List.length_append, List.map_append,
        List.length_map, List.length_cons,
        SolverState.rowsFrom_length]
      omega
    · show ((SolverState.afterAddPoses _ _).targets).map _ = _
      rw [SolverState.afterAddPoses]
      simp only [List.nil_append, List.map_append]
      rw [SolverState.rowsFrom_map_target, SolverState.rowsFrom_map_target]
    · rw [SolverState.afterAddPoses]
      simp only [List.map_map]
      refine List.map_congr_left ?_
      intro b0 hb0
      simp only [Function.comp]
      have hbl : b0.poses.length = s.targets.length := h.blender_len b0 hb0
      have hn : s.targets.length = pre.length + (suf.length + 1) := by
        rw [hsplit, List.length_append, List.length_cons]
      congr 1
      have hrec : (SolverState.rowsFrom s 0 pre
          ++ SolverState.rowsFrom s (pre.length + 1) suf).map
            (SolverState.recordOf
              { b0 with poses := b0.poses.eraseIdx pre.length })
          = b0.poses.eraseIdx pre.length := by
        rw [show SolverState.recordOf
            { b0 with poses := b0.poses.eraseIdx pre.length }
          = fun p => (p.2.driven.lookup b0.drivenTransform).getD idMat
          from rfl]
        rw [List.map_append,
          SolverState.rowsFrom_map_record s b0 hb0 h.blenders_nodup pre 0,
          SolverState.rowsFrom_map_record s b0 hb0 h.blenders_nodup suf
            (pre.length + 1)]
        rw [show (fun k => b0.poses.getD k idMat)
          = fun k => b0.poses.getD k idMat from rfl]
        rw [SolverState.map_getD_range' b0.poses idMat pre.length 0 (by omega),
          SolverState.map_getD_range' b0.poses idMat suf.length (pre.length + 1)
            (by omega)]
        rw [List.drop_zero, List.take_of_length_le
          (i := suf.length) (l := b0.poses.drop (pre.length + 1)) (by
          rw [List.length_drop]
          omega)]
        rw [List.eraseIdx_eq_take_drop_succ]
      simp only [SolverState.num_poses, List.length_nil]
      rw [hrec, SolverState.applyRecords_zero]
      rw [List.drop_length, List.append_nil]

/-- Witness for C6: deleting `"raised"` from the two-pose witness
solver leaves one pose and one recorded matrix per binding. -/
theorem delete_pose_contract_witness :
    ∃ s', SolverState.delete_pose witScene witSolver "raised" = .ok s' ∧
      s'.num_poses + 1 = witSolver.num_poses ∧
      s'.targets.map SolverState.targetProj
        = ([witTargetDefault] ++ []).map SolverState.targetProj ∧
      s'.poseBlenders.map (fun b => (b.drivenTransform, b.poses))
        = witSolver.poseBlenders.map
            (fun b => (b.drivenTransform, b.poses.eraseIdx 1)) :=
  (delete_pose_contract witScene witSolver "raised" (by decide)).2
    [witTargetDefault] witTargetRaised [] (by decide) (by decide)

theorem findIdxName_some_split :
    ∀ (l : List PoseTarget) (name : String) (i : Nat),
      SolverState.findIdxName l name = some i →
      ∃ pre t suf, l = pre ++ t :: suf ∧ pre.length = i ∧
        t.targetName = name ∧ ∀ x ∈ pre, x.targetName ≠ name := by
  intro l
  induction l with
  | nil =>
    intro name i hleft
    exact absurd hleft (by simp [SolverState.findIdxName])
  | cons t rest ih =>
    intro name i hleft
    rw [SolverState.findIdxName] at hleft
    by_cases ht : t.targetName = name
    · rw [if_pos ht] at hleft
      obtain rfl : (0 : Nat) = i := Option.some.inj hleft
      exact ⟨[], t, rest, rfl, rfl, ht, by simp⟩
    · rw [if_neg ht] at hleft
      obtain ⟨j, hj, rfl⟩ : ∃ j, SolverState.findIdxName rest name = some j
          ∧ j + 1 = i := by
        cases hf : SolverState.findIdxName rest name with
        | none => rw [hf] at hleft; exact absurd hleft (by simp)
        | some j => rw [hf] at hleft; exact ⟨j, rfl, Option.some.inj hleft⟩
      obtain ⟨pre, t', suf, hsp, hlen, hname, hpre⟩ := ih name j hj
      refine ⟨t :: pre, t', suf, by rw [hsp, List.cons_append], by simp [hlen],
        hname, ?_⟩
      intro x hx
      rcases List.mem_cons.mp hx with rfl | hx
      · exact ht
      · exact hpre x hx

theorem createDrivers_ok (sc : TScene) :
    ∀ (ds : List String) (st : SolverState),
      st.targets = [] → ds.Nodup →
      (∀ n ∈ ds, n ∉ st.drivers) →
      (∀ n ∈ ds, (sc.transforms.lookup n).isSome) →
      createDrivers sc st ds = .ok (afterCreateDrivers sc st ds) := by
  intro ds
  induction ds with
  | nil =>
    intro st _ _ _ _
    unfold createDrivers afterCreateDrivers
    simp
  | cons n rest ih =>
    intro st htg hnodup hnotin hlk
    obtain ⟨m, hm⟩ :=
      Option.isSome_iff_exists.mp (hlk n (List.mem_cons_self n rest))
    have hcont : st.drivers.contains n = false := by
      simp [hnotin n (List.mem_cons_self n rest)]
    have hadd : st.add_driver sc [n]
        = .ok { st with drivers := st.drivers ++ [n]
                        inputsRest := st.inputsRest ++ [m] } := by
      unfold SolverState.add_driver
      rw [if_neg (by simp [SolverState.num_poses, htg])]
      show (match sc.transforms.lookup n with
            | none => (Except.error Err.nodeNotFound : Except Err SolverState)
            | some m0 =>
              if st.drivers.contains n then Except.error Err.duplicateDriver
              else Except.ok { st with drivers := st.drivers ++ [n]
                                       inputsRest := st.inputsRest ++ [m0] }) = _
      rw [hm, hcont]
      rfl
    have hstep : createDrivers sc st (n :: rest)
        = createDrivers sc { st with drivers := st.drivers ++ [n]
                                     inputsRest := st.inputsRest ++ [m] } rest := by
      show (if st.drivers.contains n then createDrivers sc st rest
            else match st.add_driver sc [n] with
                 | .error e => Except.error e
                 | .ok st' => createDrivers sc st' rest) = _
      rw [hcont, hadd]
      rfl
    have hrest := ih { st with drivers := st.drivers ++ [n]
                               inputsRest := st.inputsRest ++ [m] }
      htg ((List.nodup_cons.mp hnodup).2)
      (by
        intro k hk hkmem
        rcases List.mem_append.mp hkmem with hk1 | hk1
        · exact hnotin k (List.mem_cons_of_mem n hk) hk1
        · rcases List.mem_singleton.mp hk1 with rfl
          exact (List.nodup_cons.mp hnodup).1 hk)
      (fun k hk => hlk k (List.mem_cons_of_mem n hk))
    rw [hstep, hrest]
    refine congrArg Except.ok ?_
    unfold afterCreateDrivers
    simp [hm, List.append_assoc]

theorem createControllers_ok (sc : TScene) :
    ∀ (cs : List String) (st : SolverState),
      st.targets = [] → cs.Nodup →
      (∀ n ∈ cs, n ∉ st.controllers) →
      (∀ n ∈ cs, (sc.transforms.lookup n).isSome) →
      createControllers sc st cs = .ok (afterCreateControllers st cs) := by
  intro cs
  induction cs with
  | nil =>
    intro st _ _ _ _
    unfold createControllers afterCreateControllers
    simp
  | cons n rest ih =>
    intro st htg hnodup hnotin hlk
    obtain ⟨m, hm⟩ :=
      Option.isSome_iff_exists.mp (hlk n (List.mem_cons_self n rest))
    have hcont : st.controllers.contains n = false := by
      simp [hnotin n (List.mem_cons_self n rest)]
    have hadd : st.add_controller sc [n]
        = .ok { st with controllers := st.controllers ++ [n] } := by
      unfold SolverState.add_controller
      rw [if_neg (by simp [SolverState.num_poses, htg])]
      show (match sc.transforms.lookup n with
            | none => (Except.error Err.nodeNotFound : Except Err SolverState)
            | some _ =>
              if st.controllers.contains n then Except.error Err.duplicateDriver
              else Except.ok { st with controllers := st.controllers ++ [n] }) = _
      rw [hm, hcont]
      rfl
    have hstep : createControllers sc st (n :: rest)
        = createControllers sc { st with controllers := st.controllers ++ [n] }
            rest := by
      show (if st.controllers.contains n then createControllers sc st rest
            else match st.add_controller sc [n] with
                 | .error e => Except.error e
                 | .ok st' => createControllers sc st' rest) = _
      rw [hcont, hadd]
      rfl
    have hrest := ih { st with controllers := st.controllers ++ [n] }
      htg ((List.nodup_cons.mp hnodup).2)
      (by
        intro k hk hkmem
        rcases List.mem_append.mp hkmem with hk1 | hk1
        · exact hnotin k (List.mem_cons_of_mem n hk) hk1
        · rcases List.mem_singleton.mp hk1 with rfl
          exact (List.nodup_cons.mp hnodup).1 hk)
      (fun k hk => hlk k (List.mem_cons_of_mem n hk))
    rw [hstep, hrest]
    refine congrArg Except.ok ?_
    unfold afterCreateControllers
    simp [List.append_assoc]

theorem add_driven_ok (sc : TScene) :
    ∀ (ns : List String) (st : SolverState),
      ns.Nodup →
      (∀ n ∈ ns, sc.boundTransforms.contains n = false) →
      (∀ n ∈ ns, n ∉ st.poseBlenders.map PoseBlenderState.drivenTransform) →
      (∀ n ∈ ns, (sc.transforms.lookup n).isSome) →
      SolverState.add_driven_transforms sc st ns false
        = .ok (afterAddDriven sc st ns) := by
  intro ns
  induction ns with
  | nil =>
    intro st _ _ _ _
    unfold SolverState.add_driven_transforms afterAddDriven
    simp
  | cons n rest ih =>
    intro st hnodup hnb hnm hlk
    obtain ⟨m, hm⟩ :=
      Option.isSome_iff_exists.mp (hlk n (List.mem_cons_self n rest))
    have hfb : freshBlender sc st n
        = { drivenTransform := n, basePose := m, poses := [m]
            weights := (List.range st.outputs).map (SolverState.outputAttr st)
            edit := false } := by
      unfold freshBlender
      rw [hm]
      rfl
    have hguard : ¬((sc.boundTransforms.contains n = true)
        ∨ ((st.poseBlenders.map PoseBlenderState.drivenTransform).contains n
            = true)) := by
      rintro (hA | hB)
      · rw [hnb n (List.mem_cons_self n rest)] at hA
        exact Bool.false_ne_true hA
      · exact hnm n (List.mem_cons_self n rest) (by simpa using hB)
    have hstep : SolverState.add_driven_transforms sc st (n :: rest) false
        = SolverState.add_driven_transforms sc
            { st with poseBlenders := st.poseBlenders ++ [freshBlender sc st n] }
            rest false := by
      rw [hfb]
      show (if (sc.boundTransforms.contains n = true)
              ∨ ((st.poseBlenders.map PoseBlenderState.drivenTransform).contains n
                  = true)
            then SolverState.add_driven_transforms sc st rest false
            else match sc.transforms.lookup n with
                 | none => (Except.error Err.nodeNotFound : Except Err SolverState)
                 | some m0 => SolverState.add_driven_transforms sc
                     { st with poseBlenders := st.poseBlenders ++
                         [{ drivenTransform := n, basePose := m0, poses := [m0]
                            weights := (List.range st.outputs).map
                              (SolverState.outputAttr st)
                            edit := false }] } rest false) = _
      rw [if_neg hguard, hm]
    have hrest := ih { st with poseBlenders :=
          st.poseBlenders ++ [freshBlender sc st n] }
      ((List.nodup_cons.mp hnodup).2)
      (fun k hk => hnb k (List.mem_cons_of_mem n hk))
      (by
        intro k hk hkmem
        rw [List.map_append] at hkmem
        rcases List.mem_append.mp hkmem with hk1 | hk1
        · exact hnm k (List.mem_cons_of_mem n hk) hk1
        · rcases List.mem_singleton.mp (by simpa using hk1) with rfl
          exact (List.nodup_cons.mp hnodup).1 hk)
      (fun k hk => hlk k (List.mem_cons_of_mem n hk))
    rw [hstep, hrest]
    refine congrArg Except.ok ?_
    show afterAddDriven sc
        { st with poseBlenders := st.poseBlenders ++ [freshBlender sc st n] }
        rest
      = afterAddDriven sc st (n :: rest)
    unfold afterAddDriven
    rw [show rest.map (freshBlender sc
        { st with poseBlenders := st.poseBlenders ++ [freshBlender sc st n] })
      = rest.map (freshBlender sc st) from rfl]
    simp [List.append_assoc]

theorem create_from_data_eq (sc : TScene) (d : SolverData)
    (s1 s2 s3 s4 : SolverState)
    (h0 : sc.solvers.lookup d.solver_name = none)
    (h1 : createDrivers sc (createDefault d.solver_name) d.drivers = .ok s1)
    (h2 : createControllers sc s1 d.controllers = .ok s2)
    (h3 : (if d.driven_transforms.isEmpty then Except.ok s2
           else s2.add_driven_transforms sc d.driven_transforms false) = .ok s3)
    (h4 : SolverState.addPosesFold sc s3 d.poses = .ok s4) :
    create_from_data sc d = .ok
      { s4 with radius := d.radius, automaticRadius := d.automaticRadius,
                weightThreshold := d.weightThreshold, mode := d.mode,
                distanceMethod := d.distanceMethod,
                normalizeMethod := d.normalizeMethod,
                functionType := d.functionType, twistAxis := d.twistAxis,
                inputMode := d.inputMode } := by
  have e1 : create_from_data sc d
      = match createDrivers sc (createDefault d.solver_name) d.drivers with
        | .error e => .error e
        | .ok t1 =>
          match createControllers sc t1 d.controllers with
          | .error e => .error e
          | .ok t2 =>
            match (if d.driven_transforms.isEmpty then Except.ok t2
                   else t2.add_driven_transforms sc d.driven_transforms false) with
            | .error e => .error e
            | .ok t3 =>
              match SolverState.addPosesFold sc t3 d.poses with
              | .error e => .error e
              | .ok t4 =>
                .ok { t4 with
                        radius := d.radius
                        automaticRadius := d.automaticRadius
                        weightThreshold := d.weightThreshold
                        mode := d.mode
                        distanceMethod := d.distanceMethod
                        normalizeMethod := d.normalizeMethod
                        functionType := d.functionType
                        twistAxis := d.twistAxis
                        inputMode := d.inputMode } := by
    unfold create_from_data
    rw [h0]
  rw [e1, h1]
  show (match createControllers sc s1 d.controllers with
        | .error e => (Except.error e : Except Err SolverState)
        | .ok t2 =>
          match (if d.driven_transforms.isEmpty then Except.ok t2
                 else t2.add_driven_transforms sc d.driven_transforms false) with
          | .error e => .error e
          | .ok t3 =>
            match SolverState.addPosesFold sc t3 d.poses with
            | .error e => .error e
            | .ok t4 =>
              .ok { t4 with
                      radius := d.radius
                      automaticRadius := d.automaticRadius
                      weightThreshold := d.weightThreshold
                      mode := d.mode
                      distanceMethod := d.distanceMethod
                      normalizeMethod := d.normalizeMethod
                      functionType := d.functionType
                      twistAxis := d.twistAxis
                      inputMode := d.inputMode }) = _
  rw [h2]
  show (match (if d.driven_transforms.isEmpty then Except.ok s2
               else s2.add_driven_transforms sc d.driven_transforms false) with
        | .error e => (Except.error e : Except Err SolverState)
        | .ok t3 =>
          match SolverState.addPosesFold sc t3 d.poses with
          | .error e => .error e
          | .ok t4 =>
            .ok { t4 with
                    radius := d.radius
                    automaticRadius := d.automaticRadius
                    weightThreshold := d.weightThreshold
                    mode := d.mode
                    distanceMethod := d.distanceMethod
                    normalizeMethod := d.normalizeMethod
                    functionType := d.functionType
                    twistAxis := d.twistAxis
                    inputMode := d.inputMode }) = _
  rw [h3]
  show (match SolverState.addPosesFold sc s3 d.poses with
        | .error e => (Except.error e : Except Err SolverState)
        | .ok t4 =>
          .ok { t4 with
                  radius := d.radius
                  automaticRadius := d.automaticRadius
                  weightThreshold := d.weightThreshold
                  mode := d.mode
                  distanceMethod := d.distanceMethod
                  normalizeMethod := d.normalizeMethod
                  functionType := d.functionType
                  twistAxis := d.twistAxis
                  inputMode := d.inputMode }) = _
  rw [h4]

/-- C1: serializing a well-formed solver that has at least one driver
and at least one pose through `data()`, then deserializing the document
through `create_from_data` into a scene that holds every referenced
transform (and no solver of that name yet), succeeds; the rebuilt
solver's `pose()` output carries exactly the same driver matrices as the
original's for every pose name (exact equality of the rational matrix
entries, hence within any tolerance), and its scalar configuration
(mode, radius, automaticRadius, weightThreshold, distanceMethod,
normalizeMethod, functionType, twistAxis, inputMode) matches the
original's exactly. -/
theorem serialization_round_trip (sc : TScene) (s : SolverState)
    (hwf : SolverState.wf s = true)
    (hP : s.targets ≠ []) (hD : s.drivers ≠ [])
    (hfresh : sc.solvers.lookup s.name = none)
    (hdrv : ∀ n ∈ s.drivers, (sc.transforms.lookup n).isSome)
    (hctl : ∀ n ∈ s.controllers, (sc.transforms.lookup n).isSome)
    (hdvn : ∀ b ∈ s.poseBlenders,
      (sc.transforms.lookup b.drivenTransform).isSome)
    (hnb : ∀ b ∈ s.poseBlenders,
      sc.boundTransforms.contains b.drivenTransform = false) :
    ∃ d s', s.data = .ok d ∧ create_from_data sc d = .ok s' ∧
      (∀ name pd, s.pose name = .ok pd →
        ∃ pd', s'.pose name = .ok pd' ∧ pd'.drivers = pd.drivers) ∧
      s'.mode = s.mode ∧ s'.radius = s.radius ∧
      s'.automaticRadius = s.automaticRadius ∧
      s'.weightThreshold = s.weightThreshold ∧
      s'.distanceMethod = s.distanceMethod ∧
      s'.normalizeMethod = s.normalizeMethod ∧
      s'.functionType = s.functionType ∧
      s'.twistAxis = s.twistAxis ∧ s'.inputMode = s.inputMode := by
  have h := SolverState.wf_props hwf
  have hdata : s.data = .ok (dataOf s) := by
    unfold SolverState.data dataOf
    rw [SolverState.posesE_wf s h]
  have h1 : createDrivers sc (createDefault s.name) s.drivers
      = .ok (afterCreateDrivers sc (createDefault s.name) s.drivers) :=
    createDrivers_ok sc s.drivers (createDefault s.name) rfl h.drivers_nodup
      (by intro n _ hcon; exact absurd hcon (List.not_mem_nil n))
      hdrv
  have h2 : createControllers sc
        (afterCreateDrivers sc (createDefault s.name) s.drivers) s.controllers
      = .ok (afterCreateControllers
          (afterCreateDrivers sc (createDefault s.name) s.drivers)
          s.controllers) :=
    createControllers_ok sc s.controllers _ rfl h.controllers_nodup
      (by intro n _ hcon; exact absurd hcon (List.not_mem_nil n))
      hctl
  have h3 : (if (s.poseBlenders.map PoseBlenderState.drivenTransform).isEmpty
        then Except.ok (afterCreateControllers
          (afterCreateDrivers sc (createDefault s.name) s.drivers)
          s.controllers)
        else (afterCreateControllers
          (afterCreateDrivers sc (createDefault s.name) s.drivers)
          s.controllers).add_driven_transforms sc
            (s.poseBlenders.map PoseBlenderState.drivenTransform) false)
      = .ok (rebuiltBase sc s) := by
    by_cases hempty :
        (s.poseBlenders.map PoseBlenderState.drivenTransform).isEmpty
    · rw [if_pos hempty]
      rw [List.isEmpty_iff] at hempty
      unfold rebuiltBase afterAddDriven
      rw [hempty]
      simp
    · rw [if_neg hempty]
      unfold rebuiltBase
      refine add_driven_ok sc _ _ h.blenders_nodup ?_ ?_ ?_
      · intro n hn
        obtain ⟨b, hb, rfl⟩ := List.mem_map.mp hn
        exact hnb b hb
      · intro n _ hcon
        exact absurd hcon (List.not_mem_nil n)
      · intro n hn
        obtain ⟨b, hb, rfl⟩ := List.mem_map.mp hn
        exact hdvn b hb
  have h4 : SolverState.addPosesFold sc (rebuiltBase sc s)
        (SolverState.rowsFrom s 0 s.targets)
      = .ok (SolverState.afterAddPoses (rebuiltBase sc s)
          (SolverState.rowsFrom s 0 s.targets)) := by
    refine SolverState.addPosesFold_ok sc _ _ ?_ ?_ ?_ ?_ ?_ ?_ ?_ ?_
    · show ((SolverState.rowsFrom s 0 s.targets).map Prod.fst).Nodup
      rw [SolverState.rowsFrom_keys]
      exact h.names_nodup
    · intro t ht
      exact absurd ht (List.not_mem_nil t)
    · intro p hp
      obtain ⟨x, hx, k, _, _, hpeq⟩ :=
        SolverState.rowsFrom_mem s s.targets 0 p hp
      rw [hpeq]
      exact h.names_ne x hx
    · intro t ht
      exact absurd ht (List.not_mem_nil t)
    · exact hD
    · intro p hp
      obtain ⟨x, hx, k, _, _, hpeq⟩ :=
        SolverState.rowsFrom_mem s s.targets 0 p hp
      rw [hpeq]
      exact h.values_len x hx
    · intro p hp
      obtain ⟨x, hx, k, _, _, hpeq⟩ :=
        SolverState.rowsFrom_mem s s.targets 0 p hp
      rw [hpeq]
      have hcl := h.ctrl_len x hx
      cases hc : s.controllers with
      | nil =>
        refine Or.inl ⟨?_, ?_⟩
        · show x.targetControllers.isEmpty = true
          have hz : x.targetControllers = [] := by
            rw [← List.length_eq_zero, hcl, hc]
            rfl
          rw [hz]
          rfl
        · show s.controllers = []
          exact hc
      | cons c cs =>
        refine Or.inr ⟨?_, ?_⟩
        · show x.targetControllers.isEmpty = false
          rw [List.isEmpty_eq_false]
          intro hcon
          rw [hcon, hc] at hcl
          simp at hcl
        · show x.targetControllers.length = s.controllers.length
          exact hcl
    · intro p hp b hb
      have hb' : b ∈ (s.poseBlenders.map PoseBlenderState.drivenTransform).map
          (freshBlender sc (afterCreateControllers
            (afterCreateDrivers sc (createDefault s.name) s.drivers)
            s.controllers)) := hb
      obtain ⟨n, hn, rfl⟩ := List.mem_map.mp hb'
      obtain ⟨b0, hb0, rfl⟩ := List.mem_map.mp hn
      obtain ⟨x, hx, k, _, hk2, hpeq⟩ :=
        SolverState.rowsFrom_mem s s.targets 0 p hp
      rw [hpeq]
      refine ⟨SolverState.blenderGetPose b0 k, ?_, ?_⟩
      · show (SolverState.mkPoseData s k x).driven.lookup b0.drivenTransform = _
        rw [show (SolverState.mkPoseData s k x).driven
            = s.poseBlenders.map
                (fun y => (y.drivenTransform, SolverState.blenderGetPose y k))
            from rfl]
        exact SolverState.lookup_map_blender _ s.poseBlenders
          h.blenders_nodup b0 hb0
      · have hkb : k < b0.poses.length := by
          rw [h.blender_len b0 hb0]
          omega
        rw [List.isEmpty_eq_false]
        intro hcon
        have h16 : (SolverState.blenderGetPose b0 k).length = 16 :=
          h.blender_mats16 b0 hb0 _ (SolverState.getD_mem b0.poses k idMat hkb)
        rw [hcon] at h16
        exact absurd h16 (by simp)
  have hcf : create_from_data sc (dataOf s) = .ok (rebuiltSolver sc s) :=
    create_from_data_eq sc (dataOf s) _ _ _ _ hfresh h1 h2 h3 h4
  refine ⟨dataOf s, rebuiltSolver sc s, hdata, hcf, ?_,
    rfl, rfl, rfl, rfl, rfl, rfl, rfl, rfl, rfl⟩
  intro name pd hpd
  cases hfi : SolverState.findIdxName s.targets name with
  | none =>
    unfold SolverState.pose at hpd
    rw [hfi] at hpd
    exact Except.noConfusion hpd
  | some i =>
    obtain ⟨pre, t, suf, hsplit, hlen, hname, hpre⟩ :=
      findIdxName_some_split s.targets name i hfi
    subst hname
    have ht : t ∈ s.targets := by rw [hsplit]; simp
    obtain ⟨hv0, hv, hc⟩ := SolverState.wfArr s h t ht
    have hps := SolverState.pose_of_split s pre t suf hsplit hpre hv0 hv hc
    rw [hps] at hpd
    injection hpd with hpd
    subst hpd
    have hsplit' : (rebuiltSolver sc s).targets
        = (SolverState.rowsFrom s 0 pre).map SolverState.mkTargetOf
          ++ SolverState.mkTargetOf
              (t.targetName, SolverState.mkPoseData s pre.length t)
            :: (SolverState.rowsFrom s (pre.length + 1) suf).map
                SolverState.mkTargetOf := by
      show (SolverState.rowsFrom s 0 s.targets).map SolverState.mkTargetOf = _
      rw [hsplit, SolverState.rowsFrom_append, Nat.zero_add]
      rw [show SolverState.rowsFrom s pre.length (t :: suf)
        = (t.targetName, SolverState.mkPoseData s pre.length t)
          :: SolverState.rowsFrom s (pre.length + 1) suf from rfl]
      rw [List.map_append, List.map_cons]
    have hpre2 : ∀ x ∈ (SolverState.rowsFrom s 0 pre).map SolverState.mkTargetOf,
        x.targetName ≠ (SolverState.mkTargetOf
          (t.targetName, SolverState.mkPoseData s pre.length t)).targetName := by
      intro x hx
      obtain ⟨p, hp, rfl⟩ := List.mem_map.mp hx
      obtain ⟨y, hy, k, _, _, hpeq⟩ := SolverState.rowsFrom_mem s pre 0 p hp
      show p.1 ≠ t.targetName
      rw [hpeq]
      exact hpre y hy
    have hps' := SolverState.pose_of_split (rebuiltSolver sc s)
      ((SolverState.rowsFrom s 0 pre).map SolverState.mkTargetOf)
      (SolverState.mkTargetOf
        (t.targetName, SolverState.mkPoseData s pre.length t))
      ((SolverState.rowsFrom s (pre.length + 1) suf).map SolverState.mkTargetOf)
      hsplit' hpre2 hv0 hv hc
    exact ⟨_, hps', rfl⟩

/-- Witness for C1: the two-pose witness solver round-trips through the
fresh witness scene. -/
theorem serialization_round_trip_witness :
    ∃ d s', witSolver.data = .ok d ∧ create_from_data witScene d = .ok s' ∧
      (∀ name pd, witSolver.pose name = .ok pd →
        ∃ pd', s'.pose name = .ok pd' ∧ pd'.drivers = pd.drivers) ∧
      s'.mode = witSolver.mode ∧ s'.radius = witSolver.radius ∧
      s'.automaticRadius = witSolver.automaticRadius ∧
      s'.weightThreshold = witSolver.weightThreshold ∧
      s'.distanceMethod = witSolver.distanceMethod ∧
      s'.normalizeMethod = witSolver.normalizeMethod ∧
      s'.functionType = witSolver.functionType ∧
      s'.twistAxis = witSolver.twistAxis ∧
      s'.inputMode = witSolver.inputMode :=
  serialization_round_trip witScene witSolver (by decide) (by decide)
    (by decide) (by decide) (by decide) (by decide) (by decide) (by decide)

theorem radians_zero : radians 0 = 0 := by
  unfold radians
  ring

theorem degrees_zero : degrees 0 = 0 := by
  unfold degrees
  simp

theorem degrees_pi : degrees Real.pi = 180 := by
  unfold degrees
  rw [mul_comm, mul_div_assoc, div_self Real.pi_ne_zero, mul_one]

theorem sqrt_four : Real.sqrt 4 = 2 := by
  rw [show (4:ℝ) = 2^2 by norm_num, Real.sqrt_sq (by norm_num : (0:ℝ) ≤ 2)]

theorem rotX_zero : rotX 0 = 1 := by
  unfold rotX
  ext i j
  fin_cases i <;> fin_cases j <;>
    norm_num [Matrix.one_apply, Fin.ext_iff, Matrix.vecHead, Matrix.vecTail]

theorem rotY_zero : rotY 0 = 1 := by
  unfold rotY
  ext i j
  fin_cases i <;> fin_cases j <;>
    norm_num [Matrix.one_apply, Fin.ext_iff, Matrix.vecHead, Matrix.vecTail]

theorem rotZ_zero : rotZ 0 = 1 := by
  unfold rotZ
  ext i j
  fin_cases i <;> fin_cases j <;>
    norm_num [Matrix.one_apply, Fin.ext_iff, Matrix.vecHead, Matrix.vecTail]

theorem eulerToMatrix_zero : eulerToMatrix 0 0 0 = 1 := by
  unfold eulerToMatrix
  rw [rotX_zero, rotY_zero, rotZ_zero, one_mul, one_mul]

theorem atan2_zero_one : atan2 0 1 = 0 := by
  unfold atan2
  rw [show (⟨1, 0⟩ : ℂ) = 1 from by apply Complex.ext <;> simp]
  exact Complex.arg_one

theorem atan2_zero_neg_one : atan2 0 (-1) = Real.pi := by
  unfold atan2
  rw [show (⟨-1, 0⟩ : ℂ) = -1 from by apply Complex.ext <;> simp]
  exact Complex.arg_neg_one

theorem quatOfRot_one : quatOfRot 1 = ⟨0, 0, 0, 1⟩ := by
  unfold quatOfRot
  norm_num [Matrix.one_apply, sqrt_four, Fin.ext_iff]

theorem quatToMatrix_negid : quatToMatrix (negXW ⟨0, 0, 0, 1⟩) = 1 := by
  unfold negXW quatToMatrix
  ext i j
  fin_cases i <;> fin_cases j <;>
    norm_num [Matrix.one_apply, Fin.ext_iff, Matrix.vecHead, Matrix.vecTail]

theorem eulerOfRot_one : eulerOfRot 1 = (0, 0, 0) := by
  unfold eulerOfRot
  norm_num [Matrix.one_apply, atan2_zero_one, Real.arcsin_zero, Fin.ext_iff]

theorem eulerDegreesOf_one : eulerDegreesOf 1 = (0, 0, 0) := by
  unfold eulerDegreesOf
  rw [eulerOfRot_one]
  norm_num [degrees_zero]

theorem rzPi_mul_self : rzPi * rzPi = 1 := by
  unfold rzPi
  ext i j
  fin_cases i <;> fin_cases j <;>
    norm_num [Matrix.mul_apply, Fin.sum_univ_three, Matrix.one_apply,
      Fin.ext_iff, Matrix.vecHead, Matrix.vecTail]

theorem rzPi_inv : rzPi⁻¹ = rzPi := Matrix.inv_eq_right_inv rzPi_mul_self

theorem one_M3_inv : (1 : M3)⁻¹ = 1 :=
  Matrix.inv_eq_right_inv (by rw [one_mul])

theorem quatOfRot_rzPi : quatOfRot rzPi = ⟨0, 0, 1, 0⟩ := by
  unfold quatOfRot rzPi
  norm_num [Matrix.vecHead, Matrix.vecTail, sqrt_four]

theorem quatToMatrix_negz : quatToMatrix (negXW ⟨0, 0, 1, 0⟩) = rzPi := by
  unfold negXW quatToMatrix rzPi
  ext i j
  fin_cases i <;> fin_cases j <;>
    norm_num [Fin.ext_iff, Matrix.vecHead, Matrix.vecTail]

theorem eulerOfRot_rzPi : eulerOfRot rzPi = (0, 0, Real.pi) := by
  unfold eulerOfRot rzPi
  norm_num [Matrix.vecHead, Matrix.vecTail, atan2_zero_one,
    atan2_zero_neg_one, Real.arcsin_zero]

theorem eulerDegreesOf_rzPi : eulerDegreesOf rzPi = (0, 0, 180) := by
  unfold eulerDegreesOf
  rw [eulerOfRot_rzPi]
  norm_num [degrees_zero, degrees_pi]

/-- C3 (counterexample): at source parent = 180° about Z, target parent
= identity and local rotation `(0, 0, 0)`, the code's rotation
mirroring returns `(0, 0, 0)` while the spec's literal step sequence
(quaternion taken from the world matrix, result recomposed by the
target parent's inverse alone) returns `(0, 0, 180)` — the spec's
sentence does not describe the implemented computation, which
conjugates (`Ps⁻¹·R·Ps` and `Pt·M·Pt⁻¹`) rather than composing. -/
theorem mirror_rotation_literal_counterexample :
    mirror_rotation rzPi 1 (0, 0, 0) = (0, 0, 0) ∧
    mirror_rotation_literal rzPi 1 (0, 0, 0) = (0, 0, 180) ∧
    ((0, 0, (180:ℝ)) : ℝ × ℝ × ℝ) ≠ ((0, 0, 0) : ℝ × ℝ × ℝ) := by
  refine ⟨?_, ?_, by norm_num⟩
  · unfold mirror_rotation
    show eulerDegreesOf ((1:M3) * quatToMatrix (negXW (quatOfRot
        (rzPi⁻¹ * (eulerToMatrix (radians 0) (radians 0) (radians 0) * rzPi))))
      * (1:M3)⁻¹) = (0, 0, 0)
    rw [radians_zero, eulerToMatrix_zero]
    simp only [one_mul]
    rw [rzPi_inv, rzPi_mul_self, quatOfRot_one, quatToMatrix_negid,
      one_M3_inv, mul_one, eulerDegreesOf_one]
  · unfold mirror_rotation_literal
    show eulerDegreesOf (quatToMatrix (negXW (quatOfRot
        (eulerToMatrix (radians 0) (radians 0) (radians 0) * rzPi)))
      * (1:M3)⁻¹) = (0, 0, 180)
    rw [radians_zero, eulerToMatrix_zero, one_mul, quatOfRot_rzPi,
      quatToMatrix_negz, one_M3_inv, mul_one, eulerDegreesOf_rzPi]

/-- C3 (amended): for every source/target parent matrix pair and local
Euler rotation in degrees, the code's rotation mirroring equals the
amended step sequence — euler degrees to matrix `R`, conjugation into
the source parent's space `Ps⁻¹·R·Ps`, quaternion extraction, X/W
negation, reconstitution `M`, conjugation by the target parent
`Pt·M·Pt⁻¹`, euler extraction, degrees. -/
theorem mirror_rotation_eq_conj (ps pt : M3) (rot : ℝ × ℝ × ℝ) :
    mirror_rotation ps pt rot = mirror_rotation_conj ps pt rot := by
  unfold mirror_rotation mirror_rotation_conj
  rw [Matrix.mul_assoc ps⁻¹
    (eulerToMatrix (radians rot.1) (radians rot.2.1) (radians rot.2.2)) ps]

/-- C8: for every pair of invertible source and target parent matrices,
the code's rotation mirroring maps the local Euler rotation `(0, 0, 0)`
to `(0, 0, 0)`: the reflection of "no rotation" is "no rotation". -/
theorem mirror_rotation_identity (ps pt : M3)
    (hps : IsUnit ps.det) (hpt : IsUnit pt.det) :
    mirror_rotation ps pt (0, 0, 0) = (0, 0, 0) := by
  unfold mirror_rotation
  show eulerDegreesOf (pt * quatToMatrix (negXW (quatOfRot
      (ps⁻¹ * (eulerToMatrix (radians 0) (radians 0) (radians 0) * ps))))
    * pt⁻¹) = (0, 0, 0)
  rw [radians_zero, eulerToMatrix_zero, one_mul,
    Matrix.nonsing_inv_mul ps hps, quatOfRot_one, quatToMatrix_negid,
    mul_one, Matrix.mul_nonsing_inv pt hpt, eulerDegreesOf_one]

/-- Witness for C8: at identity parent matrices. -/
theorem mirror_rotation_identity_witness :
    mirror_rotation 1 1 (0, 0, 0) = (0, 0, 0) :=
  mirror_rotation_identity 1 1 (by simp) (by simp)

/-- Witness for C7's amended theorem, at the concrete two-solver
scene. -/
theorem edit_solver_amended_witness :
    (∀ j, j ≠ 0 →
      (witSceneMAfter).solvers.get? j = witSceneM.solvers.get? j) ∧
    (∀ s', (witSceneMAfter).solvers.get? 0 = some s' →
      ∀ b ∈ s'.poseBlenders, b.edit = true) :=
  edit_solver_amended witSceneM 0 witSceneMAfter (by rfl)

end PoseWrangler
